import Mathlib

/-!
# Verification of the patch-admission pipeline

A shallow embedding, in Lean 4, of the security-critical components of the
GPT-Actions patch-admission pipeline:

* `ChainAudit`   — the hash-chained audit log
  (`tools/gptactions_gateway/security/chain_audit.py`);
* `Attest`       — the signed attestation protocol
  (`tools/patch_validator/attestation.py`);
* `PatchSchema`  — the proposal schema validator
  (`tools/gptactions_gateway/security/patch_schema.py`);
* `Structural`   — the structural checker
  (`tools/patch_validator/structural_checker.py`);
* `Sast`         — the static-analysis runner's result aggregation
  (`tools/patch_validator/sast_runner.py`);
* `Validator`    — the validation pipeline's verdict logic
  (`tools/patch_validator/validator.py`);
* `JailFS`       — the filesystem jail's path validation
  (`tools/gptactions_gateway/security/jail.py`);
* `Integrator`   — the patch integrator
  (`tools/patch_integrator/integrator.py`).

Effectful boundaries (SHA-256, Ed25519, the filesystem, git, subprocesses,
wall-clock time) are passed in as explicit parameters; all program logic is
translated directly from the Python source.  Strings are processed as their
underlying character lists so that every definition is executable and every
concrete instance decidable.
-/

namespace Util

/-- Split a character list on a single separator character (model of
Python `str.split(sep)` for a one-character separator: always returns at
least one piece, empty pieces preserved). -/
def splitOnChar (sep : Char) : List Char → List (List Char)
  | [] => [[]]
  | c :: rest =>
    let r := splitOnChar sep rest
    if c = sep then [] :: r
    else match r with
      | [] => [[c]]
      | p :: ps => (c :: p) :: ps

/-- Does `sub` occur as a contiguous substring of `l`?  (Model of Python's
`in` operator on strings / `re` substring search for a literal pattern.) -/
def containsSub (sub : List Char) : List Char → Bool
  | [] => sub.isEmpty
  | c :: rest => sub.isPrefixOf (c :: rest) || containsSub sub rest

/-- ASCII lower-casing of a character list (model of Python `str.lower()`
on ASCII data). -/
def lowerChars (l : List Char) : List Char := l.map Char.toLower

/-- ASCII upper-casing of a character list (model of Python `str.upper()`
on ASCII data). -/
def upperChars (l : List Char) : List Char := l.map Char.toUpper

/-- Lexicographic strict order on character lists by code point — the order
Python uses to compare strings, hence the order of `sort_keys=True`. -/
def charsLt : List Char → List Char → Bool
  | [], [] => false
  | [], _ :: _ => true
  | _ :: _, [] => false
  | a :: as_, b :: bs =>
    if a.toNat < b.toNat then true
    else if b.toNat < a.toNat then false
    else charsLt as_ bs

/-- Lexicographic strict order on strings by code point. -/
def strLt (a b : String) : Bool := charsLt a.data b.data

/-- Stable insertion of a key-value pair into a list sorted by `strLt` on
the keys: equal keys keep their original relative order. -/
def insertByKey (x : String × String) : List (String × String) → List (String × String)
  | [] => [x]
  | y :: ys => if strLt y.1 x.1 then y :: insertByKey x ys else x :: y :: ys

/-- Stable sort of key-value pairs by key (model of Python's stable
`sorted(..., key=...)` as used by `json.dumps(sort_keys=True)`). -/
def sortByKey : List (String × String) → List (String × String)
  | [] => []
  | x :: xs => insertByKey x (sortByKey xs)

/-- Lower-case hexadecimal digit for a value `< 16`. -/
def hexDigit (n : Nat) : Char :=
  if n < 10 then Char.ofNat (48 + n) else Char.ofNat (87 + n)

/-- JSON string escaping as performed by `json.dumps(..., ensure_ascii=True)`:
the shortcut escapes for `"` `\` and the common control characters, `\u00XX`
for the remaining control characters, and `\uXXXX` for non-ASCII code points
(surrogate pairs are not modelled; the pipeline's data is ASCII). -/
def jsonEscapeChar (c : Char) : List Char :=
  if c = '"' then ['\\', '"']
  else if c = '\\' then ['\\', '\\']
  else if c = '\n' then ['\\', 'n']
  else if c = '\r' then ['\\', 'r']
  else if c = '\t' then ['\\', 't']
  else if c.toNat = 8 then ['\\', 'b']
  else if c.toNat = 12 then ['\\', 'f']
  else if c.toNat < 32 || c.toNat > 126 then
    ['\\', 'u', hexDigit (c.toNat / 4096 % 16), hexDigit (c.toNat / 256 % 16),
     hexDigit (c.toNat / 16 % 16), hexDigit (c.toNat % 16)]
  else [c]

/-- JSON serialization of a string (quotes plus escapes). -/
def jsonStr (s : String) : String :=
  ⟨'"' :: (s.data.flatMap jsonEscapeChar) ++ ['"']⟩

/-- JSON object from a list of keys paired with already-serialized values,
in the given key order, with the compact `(",", ":")` separators of
`json.dumps(..., separators=(",", ":"))`. -/
def jsonObj (kvs : List (String × String)) : String :=
  "\x7b" ++ String.intercalate "," (kvs.map (fun kv => jsonStr kv.1 ++ ":" ++ kv.2)) ++ "\x7d"

/-- Does the string begin with a `/`?  (Model of Python
`PurePosixPath` absoluteness / `str.startswith("/")`, on the character
list so that it evaluates in the kernel.) -/
def startsWithSlash (s : String) : Bool :=
  match s.data with
  | '/' :: _ => true
  | _ => false

end Util

namespace ChainAudit

/-! ## Hash-chained audit log

Model of `tools/gptactions_gateway/security/chain_audit.py`.  The log file
is modelled as the list of its (parsed) entries; SHA-256 is an explicit
function parameter `sha256 : String → String`.  Timestamps are inputs. -/

/-- Sentinel for the first entry: `_GENESIS_HASH = "0" * 64`. -/
def GENESIS_HASH : String := ⟨List.replicate 64 '0'⟩

/-- The fields of one audit entry except `entry_hash` — exactly the dict
that `_compute_entry_hash` serializes. -/
structure EntryCore where
  seq : Int
  ts : String
  event : String
  src_ip : String
  payload_hash : String
  actor_hash : String
  outcome : String
  detail : String
  prev_hash : String
deriving DecidableEq, Repr

/-- One audit-log line: the core fields plus the stored `entry_hash`. -/
structure AuditEntry extends EntryCore where
  entry_hash : String
deriving DecidableEq, Repr

/-- Canonical JSON of an entry sans `entry_hash`:
`json.dumps(sans_hash, sort_keys=True, ensure_ascii=True, separators=(",", ":"))`.
The keys appear in sorted order: actor_hash, detail, event, outcome,
payload_hash, prev_hash, seq, src_ip, ts. -/
def entryCanonicalJson (e : EntryCore) : String :=
  Util.jsonObj
    [("actor_hash", Util.jsonStr e.actor_hash),
     ("detail", Util.jsonStr e.detail),
     ("event", Util.jsonStr e.event),
     ("outcome", Util.jsonStr e.outcome),
     ("payload_hash", Util.jsonStr e.payload_hash),
     ("prev_hash", Util.jsonStr e.prev_hash),
     ("seq", toString e.seq),
     ("src_ip", Util.jsonStr e.src_ip),
     ("ts", Util.jsonStr e.ts)]

/-- `ChainedAuditLog._compute_entry_hash`: SHA-256 of the canonical JSON of
the entry, excluding the `entry_hash` key. -/
def computeEntryHash (sha256 : String → String) (e : EntryCore) : String :=
  sha256 (entryCanonicalJson e)

/-- `detail.replace("\n", " ").replace("\r", " ")[:512]` — newlines become
spaces and the result is truncated to 512 characters. -/
def sanitizeDetail (detail : String) : String :=
  ⟨((detail.data.map fun c => if c = '\n' then ' ' else if c = '\r' then ' ' else c).take 512)⟩

/-- In-memory writer state (`self._seq`, `self._prev_hash`) together with
the log file contents (the list of appended entries). -/
structure ChainState where
  seq : Int
  prev_hash : String
  log : List AuditEntry
deriving DecidableEq, Repr

/-- State over a fresh (empty or absent) log file: `_bootstrap` returns
`(0, _GENESIS_HASH)` and no lines exist. -/
def initState : ChainState := ⟨0, GENESIS_HASH, []⟩

/-- The caller-supplied arguments of one `append` call (the timestamp is an
input because the model has no clock). -/
structure AppendInput where
  ts : String
  event : String
  src_ip : String
  payload_hash : String
  actor_hash : String
  outcome : String
  detail : String
deriving DecidableEq, Repr

/-- `ChainedAuditLog.append`: build the entry with the next sequence number
and the cached previous hash, compute its `entry_hash`, write it, advance
the cached state.  Returns the new state and the new entry's hash. -/
def ChainState.append (sha256 : String → String) (st : ChainState) (inp : AppendInput) :
    ChainState × String :=
  let core : EntryCore :=
    { seq := st.seq + 1
      ts := inp.ts
      event := inp.event
      src_ip := inp.src_ip
      payload_hash := inp.payload_hash
      actor_hash := inp.actor_hash
      outcome := inp.outcome
      detail := sanitizeDetail inp.detail
      prev_hash := st.prev_hash }
  let h := computeEntryHash sha256 core
  (⟨st.seq + 1, h, st.log ++ [{ toEntryCore := core, entry_hash := h }]⟩, h)

/-- A sequence of `append` calls starting from a given state. -/
def appendMany (sha256 : String → String) (st : ChainState) : List AppendInput → ChainState
  | [] => st
  | inp :: rest => appendMany sha256 (st.append sha256 inp).1 rest

/-- The replay loop of `verify_chain`, generalized over the running
`prev_hash`: each entry's stored `prev_hash` must equal the running hash and
its stored `entry_hash` must equal the recomputed hash of its core. -/
def verifyFrom (sha256 : String → String) : String → List AuditEntry → Bool
  | _, [] => true
  | prev, e :: rest =>
    if e.prev_hash ≠ prev then false
    else if e.entry_hash ≠ computeEntryHash sha256 e.toEntryCore then false
    else verifyFrom sha256 e.entry_hash rest

/-- `ChainedAuditLog.verify_chain` on a log whose lines all parse: replay
from the genesis sentinel.  (An absent or empty log is the `[]` case and is
reported intact; an unparseable line returns `False` in the source and is
outside this model, which quantifies over well-formed entries.) -/
def verifyChain (sha256 : String → String) (log : List AuditEntry) : Bool :=
  verifyFrom sha256 GENESIS_HASH log

/-- A single-field rewrite of one audit entry. -/
inductive FieldMutation where
  | seq (v : Int)
  | ts (v : String)
  | event (v : String)
  | src_ip (v : String)
  | payload_hash (v : String)
  | actor_hash (v : String)
  | outcome (v : String)
  | detail (v : String)
  | prev_hash (v : String)
  | entry_hash (v : String)
deriving DecidableEq, Repr

/-- Apply a single-field rewrite to an entry. -/
def applyMutation : FieldMutation → AuditEntry → AuditEntry
  | .seq v, e => { e with seq := v }
  | .ts v, e => { e with ts := v }
  | .event v, e => { e with event := v }
  | .src_ip v, e => { e with src_ip := v }
  | .payload_hash v, e => { e with payload_hash := v }
  | .actor_hash v, e => { e with actor_hash := v }
  | .outcome v, e => { e with outcome := v }
  | .detail v, e => { e with detail := v }
  | .prev_hash v, e => { e with prev_hash := v }
  | .entry_hash v, e => { e with entry_hash := v }

/-- The mutation actually changes the entry, and — for a rewrite of a field
covered by the entry hash — the recomputed SHA-256 differs from the stored
one (i.e. the rewrite does not produce a hash collision).  For the
`prev_hash` and `entry_hash` fields the chain/hash comparison detects any
change outright, so only disequality of the new value is required. -/
def detects (sha256 : String → String) (e : AuditEntry) : FieldMutation → Bool
  | .prev_hash v => v ≠ e.prev_hash
  | .entry_hash v => v ≠ e.entry_hash
  | m =>
    computeEntryHash sha256 (applyMutation m e).toEntryCore ≠
      computeEntryHash sha256 e.toEntryCore

end ChainAudit

namespace Attest

/-! ## Signed attestation protocol

Model of `tools/patch_validator/attestation.py`.  The Ed25519 primitive is
abstracted as a signing function `sign : String → List Nat` (canonical bytes
to raw signature bytes) and a verification predicate
`verifyOk : String → List Nat → Bool` for a given public key; theorems state
their hypotheses explicitly.  Base64url, through which the signature passes,
is modelled concretely because Python's lenient decoder is load-bearing. -/

/-- The url-safe base64 alphabet. -/
def b64Alphabet : List Char :=
  "ABCDEFGHIJKLMNOPQRSTUVWXYZabcdefghijklmnopqrstuvwxyz0123456789-_".data

/-- The alphabet character for a 6-bit value. -/
def b64Char (n : Nat) : Char := b64Alphabet.getD n 'A'

/-- The 6-bit value of an alphabet character, if any. -/
def b64Val (c : Char) : Option Nat := b64Alphabet.findIdx? (· = c)

/-- `base64.urlsafe_b64encode` on a byte list: groups of three bytes become
four alphabet characters; a final group of one or two bytes is padded with
`=`. -/
def b64encode : List Nat → String
  | [] => ""
  | [a] => ⟨[b64Char (a / 4), b64Char (a % 4 * 16), '=', '=']⟩
  | [a, b] => ⟨[b64Char (a / 4), b64Char (a % 4 * 16 + b / 16), b64Char (b % 16 * 4), '=']⟩
  | a :: b :: c :: rest =>
    (⟨[b64Char (a / 4), b64Char (a % 4 * 16 + b / 16),
       b64Char (b % 16 * 4 + c / 64), b64Char (c % 64)]⟩ : String) ++ b64encode rest

/-- Collect the 6-bit values of the alphabet characters preceding the first
`=`, skipping characters outside the alphabet, and report whether a `=` was
seen — the lenient scan of CPython's `binascii.a2b_base64` (which the
attestation code relies on by always appending `"=="` before decoding).
Faithful to CPython on every input whose first `=` does not fall after
exactly `4k+1` collected characters mid-stream, which covers canonical
encodings and the tampered signatures considered here. -/
def b64DataPre : List Char → List Nat × Bool
  | [] => ([], false)
  | c :: rest =>
    if c = '=' then ([], true)
    else match b64Val c with
      | some v =>
        let (d, p) := b64DataPre rest
        (v :: d, p)
      | none => b64DataPre rest

/-- Reassemble bytes from 6-bit values: each full quad yields three bytes, a
final pair or triple yields one or two bytes (unused low bits discarded,
exactly as CPython does), and a trailing single value is an error. -/
def b64Quads : List Nat → Option (List Nat)
  | [] => some []
  | [_] => none
  | [a, b] => some [a * 4 + b / 16]
  | [a, b, c] => some [a * 4 + b / 16, b % 16 * 16 + c / 4]
  | a :: b :: c :: d :: rest =>
    match b64Quads rest with
    | some bs => some ((a * 4 + b / 16) :: (b % 16 * 16 + c / 4) :: (c % 4 * 64 + d) :: bs)
    | none => none

/-- `base64.urlsafe_b64decode`: `none` models the `binascii.Error` raised on
missing padding or a dangling 6-bit value. -/
def b64decode (s : String) : Option (List Nat) :=
  let (d, sawPad) := b64DataPre s.data
  if !sawPad && d.length % 4 ≠ 0 then none else b64Quads d

/-- `POLICY_VERSION = "1.0"`. -/
def POLICY_VERSION : String := "1.0"

/-- The attestation fields covered by the signature (everything except
`signature` itself).  The checks map is a list of name/status pairs. -/
structure AttCore where
  patch_id : String
  patch_hash : String
  policy : String
  timestamp : String
  checks : List (String × String)
  outcome : String
deriving DecidableEq, Repr

/-- A full attestation: the signed fields plus the base64url signature. -/
structure Attestation extends AttCore where
  signature : String
deriving DecidableEq, Repr

/-- `_canonical_json`: `json.dumps` of the attestation dict minus
`signature`, with sorted keys, compact separators and ASCII escaping.  The
top-level keys in sorted order are checks, outcome, patch_hash, patch_id,
policy, timestamp; the nested checks dict is likewise key-sorted. -/
def canonicalJson (a : AttCore) : String :=
  Util.jsonObj
    [("checks", Util.jsonObj ((Util.sortByKey a.checks).map
        (fun kv => (kv.1, Util.jsonStr kv.2)))),
     ("outcome", Util.jsonStr a.outcome),
     ("patch_hash", Util.jsonStr a.patch_hash),
     ("patch_id", Util.jsonStr a.patch_id),
     ("policy", Util.jsonStr a.policy),
     ("timestamp", Util.jsonStr a.timestamp)]

/-- `sign_attestation`: build the attestation dict, sign its canonical JSON
with the private key, and store the base64url-encoded signature.  The
timestamp is an input because the model has no clock. -/
def signAttestation (sign : String → List Nat)
    (patch_id patch_hash : String) (checks : List (String × String))
    (outcome timestamp : String) : Attestation :=
  let core : AttCore :=
    { patch_id := patch_id
      patch_hash := patch_hash
      policy := POLICY_VERSION
      timestamp := timestamp
      checks := checks
      outcome := outcome }
  { toAttCore := core, signature := b64encode (sign (canonicalJson core)) }

/-- The distinct failure modes of `verify_attestation`
(`AttestationVerificationError` with different messages). -/
inductive VerifyError where
  | missingSignature
  | badBase64
  | invalidSignature
deriving DecidableEq, Repr

/-- `verify_attestation`: reject an empty signature field, decode the
signature (the source appends `"=="` before decoding), recompute the
canonical JSON from the received fields, and check the signature against
the public key's verification predicate. -/
def verifyAttestation (verifyOk : String → List Nat → Bool) (a : Attestation) :
    Except VerifyError Unit :=
  if a.signature = "" then .error .missingSignature
  else
    match b64decode (a.signature ++ "==") with
    | none => .error .badBase64
    | some raw =>
      if verifyOk (canonicalJson a.toAttCore) raw then .ok () else .error .invalidSignature

/-- A single-field rewrite of a signed attestation. -/
inductive AttMutation where
  | patch_id (v : String)
  | patch_hash (v : String)
  | policy (v : String)
  | timestamp (v : String)
  | checks (v : List (String × String))
  | outcome (v : String)
  | signature (v : String)
deriving DecidableEq, Repr

/-- Apply a single-field rewrite to an attestation. -/
def applyAttMutation : AttMutation → Attestation → Attestation
  | .patch_id v, a => { a with patch_id := v }
  | .patch_hash v, a => { a with patch_hash := v }
  | .policy v, a => { a with policy := v }
  | .timestamp v, a => { a with timestamp := v }
  | .checks v, a => { a with checks := v }
  | .outcome v, a => { a with outcome := v }
  | .signature v, a => { a with signature := v }

end Attest

namespace Util

/-- One pass of Python `str.replace(ab, "")` for a two-character pattern:
scan left to right, deleting each non-overlapping occurrence of `a` followed
by `b`. -/
def stripPairs (a b : Char) : List Char → List Char
  | x :: y :: rest =>
    if x = a ∧ y = b then stripPairs a b rest
    else x :: stripPairs a b (y :: rest)
  | l => l

/-- `raw.replace(":/", "").replace(":\\", "")` — the preprocessing both the
jail and the schema validator apply before testing for an Alternate Data
Stream colon. -/
def adsStripped (raw : List Char) : List Char :=
  stripPairs ':' '\\' (stripPairs ':' '/' raw)

end Util

namespace PatchSchema

/-! ## Proposal schema validation

Model of `tools/gptactions_gateway/security/patch_schema.py`.  Pydantic's
field constraints and validators are folded into one boolean validity
predicate per model; `validate_proposal` reports `valid` plus the policy
flags.  Error/warning message strings are abbreviated to stable tags. -/

def VALID_SCHEMA_VERSIONS : List String := ["1.0"]

def VALID_CHANGE_TYPES : List String :=
  ["code_modification", "test_addition", "refactor", "config_change"]

/-- `"high"` is deliberately absent: high risk is always rejected. -/
def VALID_RISK_LEVELS : List String := ["low", "medium"]

def MAX_FILES_PER_PATCH : Nat := 5
def MAX_HUNKS_PER_FILE : Nat := 20
def MAX_LINES_PER_HUNK : Nat := 100
def MAX_LINE_LENGTH : Nat := 2000
def MAX_RATIONALE_LENGTH : Nat := 500

def ALLOWED_TARGET_EXTENSIONS : List String :=
  [".py", ".ts", ".tsx", ".js", ".jsx",
   ".go", ".rs", ".c", ".cpp", ".h", ".hpp",
   ".json", ".yaml", ".yml", ".toml",
   ".sh", ".bash", ".cfg", ".ini", ".conf",
   ".sql", ".graphql", ".proto"]

/-- A hunk as the schema sees it (all fields required by pydantic). -/
structure Hunk where
  start_line : Int
  end_line : Int
  old_lines : List String
  new_lines : List String
deriving DecidableEq, Repr

/-- The `Hunk` model's constraints: `Field(ge=1)` on both line numbers,
`max_length=MAX_LINES_PER_HUNK` on both line lists, and `validate_range`
(`end_line >= start_line`, every line at most `MAX_LINE_LENGTH` chars). -/
def hunkValid (h : Hunk) : Bool :=
  1 ≤ h.start_line && 1 ≤ h.end_line &&
  h.old_lines.length ≤ MAX_LINES_PER_HUNK &&
  h.new_lines.length ≤ MAX_LINES_PER_HUNK &&
  h.start_line ≤ h.end_line &&
  (h.old_lines ++ h.new_lines).all (fun l => l.length ≤ MAX_LINE_LENGTH)

/-- A target file as the schema sees it. -/
structure TargetFile where
  path : String
  hunks : List Hunk
deriving DecidableEq, Repr

/-- The characters after the last `.` of a path (Python
`v.rsplit(".", 1)[-1]`). -/
def afterLastDot (l : List Char) : List Char :=
  (Util.splitOnChar '.' l).getLastD []

/-- `TargetFile.validate_path`: no `..` segment (splitting on both slash
kinds), no NUL byte, no ADS colon, and an allow-listed extension
(`"." + v.rsplit(".", 1)[-1].lower()` when the path contains a dot, `""`
otherwise). -/
def validatePathField (v : String) : Bool :=
  let parts := Util.splitOnChar '/' (v.data.map fun c => if c = '\\' then '/' else c)
  ¬ parts.contains ['.', '.'] &&
  ¬ v.data.contains (Char.ofNat 0) &&
  ¬ (Util.adsStripped v.data).contains ':' &&
  (let suffix : List Char :=
    if v.data.contains '.' then '.' :: Util.lowerChars (afterLastDot v.data) else []
   ALLOWED_TARGET_EXTENSIONS.any (fun e => e.data = suffix))

/-- The `TargetFile` model's constraints: path length in `[1, 512]`,
between 1 and `MAX_HUNKS_PER_FILE` hunks, every hunk valid, and
`validate_path`. -/
def targetFileValid (f : TargetFile) : Bool :=
  1 ≤ f.path.length && f.path.length ≤ 512 &&
  1 ≤ f.hunks.length && f.hunks.length ≤ MAX_HUNKS_PER_FILE &&
  f.hunks.all hunkValid &&
  validatePathField f.path

/-- `PROTECTED_PATH_PATTERNS` as case-insensitive substring tests.  Each
regex is either anchored at the start or after a `/` (`(^|/)...`), a bare
substring alternation, or an end-anchored extension alternation. -/
def isProtectedPath (path : String) : Bool :=
  let n := Util.lowerChars path.data
  -- (^|/)\.github/
  (".github/".data.isPrefixOf n || Util.containsSub "/.github/".data n) ||
  -- (^|/)workflows?/
  ("workflow/".data.isPrefixOf n || Util.containsSub "/workflow/".data n ||
   "workflows/".data.isPrefixOf n || Util.containsSub "/workflows/".data n) ||
  -- (^|/)security/
  ("security/".data.isPrefixOf n || Util.containsSub "/security/".data n) ||
  -- (^|/)auth
  ("auth".data.isPrefixOf n || Util.containsSub "/auth".data n) ||
  -- \.(env|pem|key|crt|p12|pfx)$
  ([".env", ".pem", ".key", ".crt", ".p12", ".pfx"].any fun e => e.data.isSuffixOf n) ||
  -- (^|/)secrets?/
  ("secret/".data.isPrefixOf n || Util.containsSub "/secret/".data n ||
   "secrets/".data.isPrefixOf n || Util.containsSub "/secrets/".data n) ||
  -- (requirements|package-lock|go\.sum|Cargo\.lock)
  (["requirements", "package-lock", "go.sum", "cargo.lock"].any fun s =>
    Util.containsSub s.data n) ||
  -- (pyproject|setup\.py|setup\.cfg)
  (["pyproject", "setup.py", "setup.cfg"].any fun s => Util.containsSub s.data n) ||
  -- (^|/)docker, (^|/)deploy, (^|/)infra
  (["docker", "deploy", "infra"].any fun s =>
    s.data.isPrefixOf n || Util.containsSub ("/" ++ s).data n)

/-- A raw patch proposal (the fields of the `PatchProposal` model). -/
structure Proposal where
  schema_version : String
  change_type : String
  risk_level : String
  rationale : String
  target_files : List TargetFile
  override_reason : Option String
deriving DecidableEq, Repr

/-- `sanitize_rationale`'s cleaning step:
`re.sub(r"[^\x20-\x7E\t\n]", "", v)` — keep printable ASCII plus tab and
newline, drop everything else. -/
def sanitizedRationale (v : String) : String :=
  ⟨v.data.filter fun c => (32 ≤ c.toNat ∧ c.toNat ≤ 126) ∨ c = '\t' ∨ c = '\n'⟩

/-- `PatchProposal.model_validate` succeeds: all field constraints and
validators hold.  The rationale must satisfy `min_length=10`,
`max_length=500` on the raw value and the sanitized value must again be at
least 10 characters (`sanitize_rationale` raises otherwise). -/
def proposalValid (p : Proposal) : Bool :=
  VALID_SCHEMA_VERSIONS.contains p.schema_version &&
  VALID_CHANGE_TYPES.contains p.change_type &&
  VALID_RISK_LEVELS.contains p.risk_level &&
  10 ≤ p.rationale.length && p.rationale.length ≤ MAX_RATIONALE_LENGTH &&
  10 ≤ (sanitizedRationale p.rationale).length &&
  1 ≤ p.target_files.length && p.target_files.length ≤ MAX_FILES_PER_PATCH &&
  p.target_files.all targetFileValid &&
  (match p.override_reason with
   | none => true
   | some r => r.length ≤ 500)

/-- `SchemaValidationResult` (error messages abbreviated to the `valid`
flag, warnings to tags). -/
structure SchemaValidationResult where
  valid : Bool
  warnings : List String
  requires_manual_override : Bool
  protected_paths : List String
deriving DecidableEq, Repr

/-- `validate_proposal`: an invalid model yields `valid=False`; a valid one
yields `valid=True` with the protected-path policy flags and warnings. -/
def validateProposal (p : Proposal) : SchemaValidationResult :=
  if ¬ proposalValid p then
    { valid := false, warnings := [], requires_manual_override := false, protected_paths := [] }
  else
    let protected_ := (p.target_files.filter (fun f => isProtectedPath f.path)).map (·.path)
    let requiresManual := ¬ protected_.isEmpty
    let warnings :=
      (if ¬ protected_.isEmpty then
        ["protected paths"] ++ (if p.override_reason.isNone then ["no override_reason"] else [])
       else []) ++
      (if p.risk_level = "medium" then ["risk medium"] else [])
    { valid := true, warnings := warnings,
      requires_manual_override := requiresManual, protected_paths := protected_ }

end PatchSchema

namespace Patch

/-! ## Raw patch data

The JSON shape shared by the structural checker, the SAST runner and the
integrator: these read the patch dict with `.get(...)` defaults, so hunk
fields are optional here. -/

/-- A hunk as read from the raw patch JSON (`hunk.get(...)` with defaults
applied at each use site). -/
structure Hunk where
  start_line : Option Int
  end_line : Option Int
  old_lines : Option (List String)
  new_lines : Option (List String)
deriving DecidableEq, Repr

/-- A target-file entry (`file_entry.get("path", "")`,
`file_entry.get("hunks", [])` folded into total fields). -/
structure TargetEntry where
  path : String
  hunks : List Hunk
deriving DecidableEq, Repr

/-- The parsed patch dict: its target files and the
`_meta.requires_manual_override` flag the validator consults. -/
structure PatchData where
  target_files : List TargetEntry
  requires_manual_override : Bool
deriving DecidableEq, Repr

end Patch

namespace Structural

/-! ## Structural checker

Model of `tools/patch_validator/structural_checker.py`.  The three
`HARD_BLOCKED_PATTERNS` and the `DEPENDENCY_FILES` regex are translated to
equivalent case-insensitive substring/suffix tests; error and warning
messages are abbreviated to stable tags. -/

def MAX_TOTAL_LINES_CHANGED : Nat := 500
def MAX_HUNK_LINES : Nat := 100
def MAX_FILES : Nat := 5

/-- `(^|[\\/])\.github[\\/]workflows[\\/]` (IGNORECASE): after lower-casing
and mapping `\` to `/`, the path starts with or contains the workflow
directory. -/
def hardBlockGithub (path : String) : Bool :=
  let n := (Util.lowerChars path.data).map fun c => if c = '\\' then '/' else c
  ".github/workflows/".data.isPrefixOf n || Util.containsSub "/.github/workflows/".data n

/-- `(^|[\\/])\.env($|[\\/])` (IGNORECASE). -/
def hardBlockEnv (path : String) : Bool :=
  let n := (Util.lowerChars path.data).map fun c => if c = '\\' then '/' else c
  n = ".env".data || ".env/".data.isPrefixOf n ||
  "/.env".data.isSuffixOf n || Util.containsSub "/.env/".data n

/-- `\.(pem|key|crt|p12|pfx|gpg|asc)$` (IGNORECASE). -/
def hardBlockKeyExt (path : String) : Bool :=
  let n := Util.lowerChars path.data
  [".pem", ".key", ".crt", ".p12", ".pfx", ".gpg", ".asc"].any fun e => e.data.isSuffixOf n

/-- The list of hard-block pattern results for a path, in source order (the
source appends one error per matching pattern). -/
def hardBlockMatches (path : String) : List Bool :=
  [hardBlockGithub path, hardBlockEnv path, hardBlockKeyExt path]

/-- `DEPENDENCY_FILES` — `(requirements.*\.txt|package-lock\.json|yarn\.lock|
go\.sum|Cargo\.lock|poetry\.lock|pyproject\.toml|setup\.py|setup\.cfg)$`
(IGNORECASE): an end-anchored alternation; `requirements.*\.txt` holds of a
lower-cased path exactly when it ends in `.txt` and contains
`requirements`. -/
def dependencyFileMatch (path : String) : Bool :=
  let n := Util.lowerChars path.data
  (["package-lock.json", "yarn.lock", "go.sum", "cargo.lock", "poetry.lock",
    "pyproject.toml", "setup.py", "setup.cfg"].any fun s => s.data.isSuffixOf n) ||
  (".txt".data.isSuffixOf n && Util.containsSub "requirements".data n)

/-- `StructuralCheckResult` (message strings abbreviated to tags). -/
structure StructuralCheckResult where
  passed : Bool
  errors : List String
  warnings : List String
  dependency_gate_triggered : Bool
  hard_blocked : Bool
  affected_files : List String
  total_lines_changed : Nat
deriving DecidableEq, Repr

/-- The per-hunk loop of `check_structure`: errors, warnings and the
line-count contribution of one hunk (`hunk.get` defaults: `start_line` and
`end_line` default to 0, line lists to `[]`). -/
def checkHunk (h : Patch.Hunk) : List String × List String × Nat :=
  let start_line := h.start_line.getD 0
  let end_line := h.end_line.getD 0
  let old_lines := h.old_lines.getD []
  let new_lines := h.new_lines.getD []
  let hunk_size := max old_lines.length new_lines.length
  let errors :=
    (if start_line < 1 then ["start_line < 1"] else []) ++
    (if end_line < start_line then ["end_line < start_line"] else []) ++
    (if MAX_HUNK_LINES < hunk_size then ["hunk too large"] else [])
  let warnings :=
    if ¬ old_lines.isEmpty ∧ (old_lines.length : Int) ≠ end_line - start_line + 1 then
      ["old_lines count mismatch"]
    else []
  (errors, warnings, hunk_size)

/-- The per-file loop body of `check_structure`: errors, warnings, the
dependency-gate and hard-block flags, the affected-file contribution and
the file's changed-line count. -/
def checkFile (entry : Patch.TargetEntry) :
    List String × List String × Bool × Bool × List String × Nat :=
  if entry.path = "" then (["file without path"], [], false, false, [], 0)
  else
    let hardHits := hardBlockMatches entry.path
    let hardErrors := (hardHits.filter id).map fun _ => "HARD BLOCK"
    let hard := hardHits.any id
    let dep := dependencyFileMatch entry.path
    let depWarnings := if dep then ["DEPENDENCY GATE"] else []
    if entry.hunks.isEmpty then
      (hardErrors ++ ["file without hunks"], depWarnings, dep, hard, [entry.path], 0)
    else
      let hunkResults := entry.hunks.map checkHunk
      (hardErrors ++ (hunkResults.map (·.1)).flatten,
       depWarnings ++ (hunkResults.map (·.2.1)).flatten,
       dep, hard, [entry.path],
       (hunkResults.map (·.2.2)).sum)

/-- `check_structure`: run every check, accumulating all failures. -/
def checkStructure (patch : Patch.PatchData) : StructuralCheckResult :=
  let target_files := patch.target_files
  if target_files.isEmpty then
    { passed := false, errors := ["no target files"], warnings := []
      dependency_gate_triggered := false, hard_blocked := false
      affected_files := [], total_lines_changed := 0 }
  else
    let countError := if MAX_FILES < target_files.length then ["too many files"] else []
    let perFile := target_files.map checkFile
    let total := (perFile.map (·.2.2.2.2.2)).sum
    let totalError := if MAX_TOTAL_LINES_CHANGED < total then ["patch too large"] else []
    let errors := countError ++ (perFile.map (·.1)).flatten ++ totalError
    { passed := errors.isEmpty
      errors := errors
      warnings := (perFile.map (·.2.1)).flatten
      dependency_gate_triggered := perFile.any (·.2.2.1)
      hard_blocked := perFile.any (·.2.2.2.1)
      affected_files := (perFile.map (·.2.2.2.2.1)).flatten
      total_lines_changed := total }

end Structural

namespace Sast

/-! ## Static-analysis runner (result aggregation)

Model of `tools/patch_validator/sast_runner.py`.  Tool execution is
external I/O: the environment supplies, per tool, either `none` (binary
absent, `shutil.which` failed) or the `SASTResult` the tool runner
produced.  `findings`, `stderr` and `returncode` do not feed the
aggregation and are omitted. -/

/-- One tool's recorded result (status is `PASS | FAIL | SKIP | ERROR`). -/
structure SASTResult where
  tool : String
  status : String
deriving DecidableEq, Repr

/-- `SASTRunnerResult` (warnings abbreviated to tags). -/
structure SASTRunnerResult where
  overall : String
  results : List SASTResult
  warnings : List String
deriving DecidableEq, Repr

/-- `SASTRunnerResult.passed`: overall `PASS` or `SKIP`. -/
def SASTRunnerResult.passed (r : SASTRunnerResult) : Bool :=
  r.overall = "PASS" || r.overall = "SKIP"

/-- What the environment did for each tool: `none` means the binary was
absent. -/
structure SastEnv where
  bandit : Option SASTResult
  semgrep : Option SASTResult
  gitleaks : Option SASTResult
deriving DecidableEq, Repr

/-- `run_sast`: record a `SKIP` result (with a warning) for each absent
tool, then aggregate: `FAIL` if any tool failed; `SKIP` if every status is
in `{SKIP, PASS}` and none is `PASS`; otherwise `PASS`. -/
def runSast (env : SastEnv) : SASTRunnerResult :=
  let results :=
    [env.bandit.getD ⟨"bandit", "SKIP"⟩,
     env.semgrep.getD ⟨"semgrep", "SKIP"⟩,
     env.gitleaks.getD ⟨"gitleaks", "SKIP"⟩]
  let warnings :=
    (if env.bandit.isNone then ["bandit not installed"] else []) ++
    (if env.semgrep.isNone then ["semgrep not installed"] else []) ++
    (if env.gitleaks.isNone then ["gitleaks not installed"] else [])
  let failed := results.filter (fun r => r.status = "FAIL")
  let all_skipped := results.all (fun r => r.status = "SKIP" || r.status = "PASS")
  let overall :=
    if ¬ failed.isEmpty then "FAIL"
    else if all_skipped ∧ ¬ results.any (fun r => r.status = "PASS") then "SKIP"
    else "PASS"
  ⟨overall, results, warnings⟩

end Sast

namespace Validator

/-! ## Validation pipeline verdict

Model of `validate_patch` in `tools/patch_validator/validator.py`, from a
parsed patch to the outcome string and checks map passed to
`sign_attestation` (the signing and persistence are `Attest`'s and the
filesystem's concern). -/

/-- The checks map handed to `_reject`, after its `setdefault` calls. -/
def rejectChecks (structural : String) : List (String × String) :=
  [("structural", structural), ("sast", "SKIP"), ("secrets", "SKIP"), ("deps", "SKIP")]

/-- `validate_patch`'s verdict logic: structural phase, hard-block gate,
structural-failure gate, SAST phase, dependency gate, `_meta` manual
override, else approval.  Returns the outcome and the checks map of the
attestation that is signed. -/
def validatePatch (patch : Patch.PatchData) (sastEnv : Sast.SastEnv) :
    String × List (String × String) :=
  let struct := Structural.checkStructure patch
  let structuralCheck := if struct.passed then "PASS" else "FAIL"
  if struct.hard_blocked then
    ("REJECTED", rejectChecks structuralCheck)
  else if ¬ struct.passed then
    ("REJECTED", rejectChecks structuralCheck)
  else
    let sast := Sast.runSast sastEnv
    -- checks["secrets"] = "PASS", then overwritten by gitleaks' recorded status
    let secrets :=
      ((sast.results.filter (fun r => r.tool = "gitleaks")).getLast?).elim "PASS" (·.status)
    let checks :=
      [("structural", structuralCheck), ("sast", sast.overall), ("secrets", secrets)]
    if ¬ sast.passed then
      ("REJECTED", checks ++ [("deps", "SKIP")])
    else if struct.dependency_gate_triggered then
      ("MANUAL_REQUIRED", checks ++ [("deps", "MANUAL_REQUIRED")])
    else if patch.requires_manual_override then
      ("MANUAL_REQUIRED", checks ++ [("deps", "PASS")])
    else
      ("APPROVED", checks ++ [("deps", "PASS")])

end Validator

namespace JailFS

/-! ## Filesystem jail

Model of `Jail.resolve` / `Jail._validate_raw` in
`tools/gptactions_gateway/security/jail.py`.  Paths are character lists;
an absolute path is modelled by its own segment list (joining an absolute
path to the jail root discards the root, as `pathlib` does), and the jail
root plus the richer filesystem state appear as parameters: `fsReal`
returns the symlink-resolved (`os.path.realpath`) segments of a candidate
when it exists on disk, `none` when it does not. -/

def MAX_PATH_DEPTH : Nat := 8

def FORBIDDEN_DIRS : List String :=
  [".git", ".env", ".ssh", "node_modules", "__pycache__",
   ".venv", "venv", "dist", "build", "secrets"]

def WINDOWS_RESERVED : List String :=
  ["CON", "PRN", "AUX", "NUL",
   "COM1", "COM2", "COM3", "COM4", "COM5", "COM6", "COM7", "COM8", "COM9",
   "LPT1", "LPT2", "LPT3", "LPT4", "LPT5", "LPT6", "LPT7", "LPT8", "LPT9"]

/-- The distinct `JailViolation` causes of `resolve`. -/
inductive JailError where
  | nullByte
  | adsColon
  | traversal
  | tooDeep
  | reservedName
  | forbiddenDir
  | escapesJail
  | symlinkEscape
deriving DecidableEq, Repr

/-- `raw.replace("\\", "/").split("/")` filtered as the source does:
`[p for p in parts if p and p != "."]`. -/
def nonEmptyParts (raw : String) : List (List Char) :=
  (Util.splitOnChar '/' (raw.data.map fun c => if c = '\\' then '/' else c)).filter
    (fun p => ¬ (p = [] ∨ p = ['.']))

/-- Is a segment's first-dot-stripped, upper-cased name a reserved Windows
device name?  (`part.split(".")[0].upper() in _WINDOWS_RESERVED`.) -/
def isReservedSegment (p : List Char) : Bool :=
  WINDOWS_RESERVED.any fun w => w.data = Util.upperChars (p.takeWhile (· ≠ '.'))

/-- Is a segment a forbidden directory name, case-insensitively?
(`part.lower() in {d.lower() for d in FORBIDDEN_DIRS}`.) -/
def isForbiddenSegment (p : List Char) : Bool :=
  FORBIDDEN_DIRS.any fun d => Util.lowerChars d.data = Util.lowerChars p

/-- `Jail._validate_raw`: the syntactic checks, in source order.  `none`
means the raw string passed them all. -/
def validateRaw (raw : String) : Option JailError :=
  if raw.data.contains (Char.ofNat 0) then some .nullByte
  else if (Util.adsStripped raw.data).contains ':' then some .adsColon
  else
    let ne := nonEmptyParts raw
    if ne.contains ['.', '.'] then some .traversal
    else if MAX_PATH_DEPTH < ne.length then some .tooDeep
    else if ne.any isReservedSegment then some .reservedName
    else if ne.any isForbiddenSegment then some .forbiddenDir
    else none

/-- The filesystem segments of the candidate `self._root / relative`: an
absolute `relative` replaces the root; otherwise the root is extended by
the POSIX segments of `relative` (split on `/` only — a backslash is an
ordinary character to the filesystem).  `.` segments are dropped as
`Path.resolve()` does; `..` segments cannot occur here because
`_validate_raw` has already rejected them (a `..` POSIX segment is also a
`..` segment of the finer split used there). -/
def candidateSegs (root : List (List Char)) (raw : String) : List (List Char) :=
  let posixSegs := (Util.splitOnChar '/' raw.data).filter (fun p => ¬ (p = [] ∨ p = ['.']))
  if Util.startsWithSlash raw then posixSegs else root ++ posixSegs

/-- `Jail.resolve`: validate the raw string, resolve the candidate, require
it inside the jail root, and — when the candidate exists on disk — require
its real (symlink-resolved) path inside the jail root as well. -/
def resolve (root : List (List Char))
    (fsReal : List (List Char) → Option (List (List Char)))
    (raw : String) : Except JailError (List (List Char)) :=
  match validateRaw raw with
  | some e => .error e
  | none =>
    let candidate := candidateSegs root raw
    if ¬ root.isPrefixOf candidate then .error .escapesJail
    else
      match fsReal candidate with
      | none => .ok candidate
      | some real => if root.isPrefixOf real then .ok candidate else .error .symlinkEscape

end JailFS

namespace Integrator

/-! ## Patch integrator

Model of `tools/patch_integrator/integrator.py`.  The repository is a git
working tree: an association list of files, the set of branches, the
checked-out branch, and the commit log.  `git checkout` between branches
carries uncommitted working-tree modifications with it (the integrator
never commits before its revert, so a branch switch changes no file), and
`git branch -D` only deletes the ref.  Attestation verification, SHA-256
and JSON parsing enter as environment parameters. -/

/-- The parsed attestation JSON as the integrator reads it (fields are
accessed with `.get`, so they are optional). -/
structure AttDict where
  outcome : Option String
  patch_hash : Option String
deriving DecidableEq, Repr

/-- A git working tree plus refs. -/
structure GitRepo where
  files : List (String × List String)
  branches : List String
  current : String
  commits : List (String × List String)
deriving DecidableEq, Repr

/-- Association-list lookup of a file's lines. -/
def lookupFile : List (String × List String) → String → Option (List String)
  | [], _ => none
  | (p, ls) :: rest, q => if p = q then some ls else lookupFile rest q

/-- Association-list update of a file's lines. -/
def setFile : List (String × List String) → String → List String →
    List (String × List String)
  | [], _, _ => []
  | (p, ls) :: rest, q, new => if p = q then (p, new) :: rest else (p, ls) :: setFile rest q new

/-- The effectful environment of one `integrate_patch` call. -/
structure IntegratorEnv where
  /-- `none`: no attestation file for this patch id; `some none`: the file
  exists but reading/parsing it raised (caught, returns `False`);
  `some (some att)`: the parsed attestation. -/
  attFile : Option (Option AttDict)
  /-- Does `verify_attestation(att, ATTESTATION_PUBLIC_KEY)` succeed? -/
  verifies : AttDict → Bool
  /-- The current bytes of the jail patch file, if it exists. -/
  patchBytes : Option (List Nat)
  /-- `compute_patch_hash` = SHA-256 of a byte string, as hex. -/
  sha256 : List Nat → String
  /-- `json.loads` of the patch bytes; `none` models a raise (uncaught at
  this point in the source). -/
  parsePatch : List Nat → Option Patch.PatchData
deriving Inhabited

/-- Whether `integrate_patch` returned a boolean or let an exception
escape. -/
inductive IntResult where
  | ret (b : Bool)
  | raised
deriving DecidableEq, Repr

/-- Python slice-index normalization for `list[s:e]`: negative indices
count from the end, then both are clamped to `[0, len]`. -/
def pySliceIdx (n : Nat) (i : Int) : Nat :=
  if i < 0 then (max ((n : Int) + i) 0).toNat.min n else i.toNat.min n

/-- Python slice assignment `l[s:e] = repl` (an empty effective range
inserts at the start index). -/
def pySetSlice (l : List α) (s e : Int) (repl : List α) : List α :=
  let n := l.length
  let s' := pySliceIdx n s
  let e' := max (pySliceIdx n e) s'
  l.take s' ++ repl ++ l.drop e'

/-- The sort key of `sorted(hunks, key=lambda h: h.get("start_line", 1))`. -/
def hunkKey (h : Patch.Hunk) : Int := h.start_line.getD 1

/-- Stable insertion by `hunkKey` (equal keys keep original order, as
Python's stable sort does). -/
def insertHunk (x : Patch.Hunk) : List Patch.Hunk → List Patch.Hunk
  | [] => [x]
  | y :: ys => if hunkKey y < hunkKey x then y :: insertHunk x ys else x :: y :: ys

/-- Stable sort by `hunkKey`. -/
def sortHunks : List Patch.Hunk → List Patch.Hunk
  | [] => []
  | x :: xs => insertHunk x (sortHunks xs)

/-- `_apply_hunks`: apply the hunks to the (1-based) lines, iterating over
`reversed(sorted(hunks, key=start_line))`; each hunk splices `new_lines`
over the 0-based range `[start_line - 1, end_line)`. -/
def applyHunks (lines : List String) (hunks : List Patch.Hunk) : List String :=
  (sortHunks hunks).reverse.foldl
    (fun result h =>
      let start := h.start_line.getD 1 - 1
      let stop := h.end_line.getD (start + 1)
      pySetSlice result start stop (h.new_lines.getD []))
    lines

/-- Does `(REPO_ROOT / file_path).resolve()` escape the repository root?
An absolute path replaces the root (the model treats it as escaping — the
root is not a fixed known path), and `..` segments may pop at most as many
segments as have been entered. -/
def relDepthOk : List (List Char) → Int → Bool
  | [], _ => true
  | s :: rest, d =>
    if s = ['.', '.'] then
      if d - 1 < 0 then false else relDepthOk rest (d - 1)
    else relDepthOk rest (d + 1)

/-- Path-escape test for one target file. -/
def escapesRepo (p : String) : Bool :=
  Util.startsWithSlash p ||
  ¬ relDepthOk ((Util.splitOnChar '/' p.data).filter (fun s => ¬ (s = [] ∨ s = ['.']))) 0

/-- The per-file application loop: collect errors for escaping or missing
targets, otherwise read, apply and write; later files still run after an
earlier error (the source `continue`s).  Returns the updated tree, the
applied files in order, and the error tags. -/
def applyFiles (repo : GitRepo) : List Patch.TargetEntry → GitRepo × List String × List String
  | [] => (repo, [], [])
  | entry :: rest =>
    if escapesRepo entry.path then
      let (r, a, errs) := applyFiles repo rest
      (r, a, ("path escapes repo: " ++ entry.path) :: errs)
    else
      match lookupFile repo.files entry.path with
      | none =>
        let (r, a, errs) := applyFiles repo rest
        (r, a, ("file not found: " ++ entry.path) :: errs)
      | some lines =>
        let modified := applyHunks lines entry.hunks
        let repo' := { repo with files := setFile repo.files entry.path modified }
        let (r, a, errs) := applyFiles repo' rest
        (r, entry.path :: a, errs)

/-- `integrate_patch`: the gate sequence (attestation present, readable,
verified; outcome not `REJECTED`; `MANUAL_REQUIRED` only with explicit
confirmation; the patch file present with its current hash equal to the
attested hash), then dry-run reporting or branch-and-apply.  On any
per-file error the source reverts the branch (`git checkout -` then
`git branch -D`) and returns `False`; on success it commits the applied
files to the integration branch. -/
def integratePatch (env : IntegratorEnv) (repo : GitRepo) (patch_id : String)
    (dry_run human_confirmed : Bool) : IntResult × GitRepo :=
  match env.attFile with
  | none => (.ret false, repo)
  | some none => (.ret false, repo)
  | some (some att) =>
    if ¬ env.verifies att then (.ret false, repo)
    else
      let outcome := att.outcome.getD "UNKNOWN"
      if outcome = "REJECTED" then (.ret false, repo)
      else if outcome = "MANUAL_REQUIRED" ∧ ¬ human_confirmed then (.ret false, repo)
      else
        match env.patchBytes with
        | none => (.ret false, repo)
        | some bytes =>
          if env.sha256 bytes ≠ att.patch_hash.getD "" then (.ret false, repo)
          else
            match env.parsePatch bytes with
            | none => (.raised, repo)
            | some patch =>
              if dry_run then (.ret true, repo)
              else
                let branch := "gptactions/patch-" ++ patch_id.take 8
                let prev := repo.current
                let repo1 :=
                  if repo.branches.contains branch then { repo with current := branch }
                  else { repo with branches := branch :: repo.branches, current := branch }
                let (repo2, applied, errors) := applyFiles repo1 patch.target_files
                if ¬ errors.isEmpty then
                  (.ret false,
                   { repo2 with current := prev, branches := repo2.branches.erase branch })
                else
                  (.ret true, { repo2 with commits := (branch, applied) :: repo2.commits })

end Integrator

namespace Util

/-- Did an `Except` computation succeed? -/
def exceptOk : Except ε α → Bool
  | .ok _ => true
  | .error _ => false

end Util

namespace ChainAudit

/-- What parsing the last line of an existing log file yields:
`invalid` when `json.loads` (or the `int(...)` coercion) raises, otherwise
the values of the `seq` and `entry_hash` keys if present. -/
inductive LineParse where
  | invalid
  | valid (seq : Option Int) (entry_hash : Option String)
deriving DecidableEq, Repr

/-- `ChainedAuditLog._bootstrap`: `none` is an absent file and an empty
line list an empty one, both yielding `(0, _GENESIS_HASH)`; otherwise only
the last line is consulted — an unparseable last line is caught and resets
the state to `(0, _GENESIS_HASH)` as well, and missing keys fall back to
`0` and the genesis sentinel. -/
def bootstrap : Option (List LineParse) → Int × String
  | none => (0, GENESIS_HASH)
  | some lines =>
    match lines.getLast? with
    | none => (0, GENESIS_HASH)
    | some .invalid => (0, GENESIS_HASH)
    | some (.valid s h) => (s.getD 0, h.getD GENESIS_HASH)

/-- A concrete stand-in for SHA-256 (injective, so hash conditions hold on
concrete data). -/
def idSha : String → String := fun s => s

/-- Two concrete append calls. -/
def sampleInputs : List AppendInput :=
  [{ ts := "t1", event := "proposal_received", src_ip := "ip1", payload_hash := "p1"
     actor_hash := "a1", outcome := "ALLOWED", detail := "d1" },
   { ts := "t2", event := "proposal_denied", src_ip := "ip2", payload_hash := "p2"
     actor_hash := "a2", outcome := "DENIED", detail := "d2" }]

/-- The chain obtained by the two appends on a fresh log. -/
def sampleChain : ChainState := appendMany idSha initState sampleInputs

/-- A concrete existing log file whose last line is not valid JSON. -/
def corruptTail : List LineParse := [.valid (some 5) (some "h5"), .invalid]

end ChainAudit

namespace Attest

/-- A toy deterministic signer for concrete instances: the signature is
the message length (one byte). -/
def toySignLen : String → List Nat := fun m => [m.length % 256]

/-- The verifier matching `toySignLen` — accepts exactly its signatures. -/
def toyVerifyLen : String → List Nat → Bool := fun m s => s == toySignLen m

/-- A verifier for a *different* keypair: accepts only another signer's
signatures, never `toySignLen`'s. -/
def toyVerifyOther : String → List Nat → Bool := fun _ s => s == [255]

/-- A concrete attestation signed with `toySignLen`. -/
def attSample : Attestation :=
  signAttestation toySignLen "0a1b2c3d-0000" "deadbeef"
    [("structural", "PASS"), ("sast", "SKIP"), ("secrets", "SKIP"), ("deps", "PASS")]
    "APPROVED" "2026-01-01T00:00:00Z"

/-- A toy constant signer (used to exhibit base64 malleability). -/
def toySignConst : String → List Nat := fun _ => [65]

/-- The verifier matching `toySignConst`. -/
def toyVerifyConst : String → List Nat → Bool := fun m s => s == toySignConst m

/-- A concrete attestation signed with `toySignConst`; its stored
signature is `b64encode [65] = "QQ=="`. -/
def attConst : Attestation :=
  signAttestation toySignConst "0a1b2c3d-0000" "deadbeef"
    [("structural", "PASS")] "APPROVED" "2026-01-01T00:00:00Z"

end Attest

namespace Integrator

/-- A concrete parsed attestation: approved, attested hash `"H"`. -/
def attApproved : AttDict := { outcome := some "APPROVED", patch_hash := some "H" }

/-- A concrete repository: one file `a.py` with two lines, branch `main`. -/
def repoSample : GitRepo :=
  { files := [("a.py", ["old1", "old2"])], branches := ["main"], current := "main"
    commits := [] }

/-- A patch whose first target applies cleanly and whose second target does
not exist in the repository. -/
def patchPartial : Patch.PatchData :=
  { target_files :=
      [{ path := "a.py"
         hunks := [{ start_line := some 1, end_line := some 1
                     old_lines := some ["old1"], new_lines := some ["NEW"] }] },
       { path := "missing.py"
         hunks := [{ start_line := some 1, end_line := some 1
                     old_lines := some ["x"], new_lines := some ["y"] }] }]
    requires_manual_override := false }

/-- Environment for the partial-application run: the attestation is
present, verified and approved, the patch file hashes to the attested
value, and it parses to `patchPartial`. -/
def envPartial : IntegratorEnv :=
  { attFile := some (some attApproved)
    verifies := fun _ => true
    patchBytes := some [0]
    sha256 := fun _ => "H"
    parsePatch := fun _ => some patchPartial }

/-- Environment for the TOCTOU run: as `envPartial`, but the current patch
bytes hash to `"X"` while the attestation says `"H"`. -/
def envTampered : IntegratorEnv :=
  { attFile := some (some attApproved)
    verifies := fun _ => true
    patchBytes := some [1]
    sha256 := fun _ => "X"
    parsePatch := fun _ => some patchPartial }

end Integrator

namespace Validator

/-- A concrete structurally clean patch: one hunk in `tools/example.py`. -/
def patchClean : Patch.PatchData :=
  { target_files :=
      [{ path := "tools/example.py"
         hunks := [{ start_line := some 1, end_line := some 1
                     old_lines := some ["x = 1"], new_lines := some ["x = 2"] }] }]
    requires_manual_override := false }

/-- A SAST environment where bandit is installed but times out (recorded
as an `ERROR` result) and the other tools are absent. -/
def sastErrEnv : Sast.SastEnv :=
  { bandit := some { tool := "bandit", status := "ERROR" }
    semgrep := none
    gitleaks := none }

end Validator

namespace PatchSchema

/-- A proposal whose rationale is ten tab characters — control characters
only — and whose every other field is valid. -/
def tabRationaleProposal : Proposal :=
  { schema_version := "1.0"
    change_type := "code_modification"
    risk_level := "low"
    rationale := ⟨List.replicate 10 '\t'⟩
    target_files :=
      [{ path := "tools/example.py"
         hunks := [{ start_line := 1, end_line := 1
                     old_lines := ["x = 1"], new_lines := ["x = 2"] }] }]
    override_reason := none }

end PatchSchema

namespace JailFS

/-- A concrete jail root (`/jail/root`). -/
def rootSample : List (List Char) := ["jail".data, "root".data]

/-- A filesystem with no existing candidate paths (fresh jail). -/
def fsEmpty : List (List Char) → Option (List (List Char)) := fun _ => none

end JailFS

namespace ChainAudit

/-- The hash a next entry must link to: the last entry's `entry_hash`, or
the starting value for an empty chain. -/
def lastHash (p : String) (l : List AuditEntry) : String :=
  (l.getLast?).elim p (·.entry_hash)

/-- The log produced by a sequence of appends on a fresh log. -/
def builtLog (sha256 : String → String) (inputs : List AppendInput) : List AuditEntry :=
  (appendMany sha256 initState inputs).log

end ChainAudit

namespace JailFS

/-- Spec-side predicate for the amended ADS clause: the string has a colon
at the end, or a colon followed by a character other than `/`, `\\` or
`:`.  Such a colon survives `raw.replace(":/", "").replace(":\\", "")` and
triggers the jail's ADS detection. -/
def hasLooseColon : List Char → Bool
  | [] => false
  | [c] => c = ':'
  | c :: d :: rest => (c = ':' ∧ ¬ (d = '/' ∨ d = '\\' ∨ d = ':')) || hasLooseColon (d :: rest)

end JailFS

/-! ## Theorems -/

namespace ChainAudit

theorem verifyFrom_cons_true {sha256 : String → String} {p : String} {e : AuditEntry}
    {l : List AuditEntry} :
    verifyFrom sha256 p (e :: l) = true ↔
      e.prev_hash = p ∧ e.entry_hash = computeEntryHash sha256 e.toEntryCore ∧
        verifyFrom sha256 e.entry_hash l = true := by
  constructor
  · intro h
    rw [verifyFrom] at h
    split_ifs at h with h1 h2
    exact ⟨not_not.mp h1, not_not.mp h2, h⟩
  · rintro ⟨h1, h2, h3⟩
    rw [verifyFrom, if_neg (by simp [h1]), if_neg (by simp [← h2])]
    exact h3

theorem verifyFrom_cons_false {sha256 : String → String} {p : String} {e : AuditEntry}
    {l : List AuditEntry}
    (h : e.prev_hash ≠ p ∨ e.entry_hash ≠ computeEntryHash sha256 e.toEntryCore) :
    verifyFrom sha256 p (e :: l) = false := by
  rw [verifyFrom]
  by_cases h1 : e.prev_hash ≠ p
  · rw [if_pos h1]
  · rw [if_neg h1]
    rcases h with h2 | h2
    · exact absurd h2 (by simpa using h1)
    · rw [if_pos h2]

theorem verifyFrom_cons_of_valid {sha256 : String → String} {p : String} {e : AuditEntry}
    {l : List AuditEntry}
    (h1 : e.prev_hash = p) (h2 : e.entry_hash = computeEntryHash sha256 e.toEntryCore) :
    verifyFrom sha256 p (e :: l) = verifyFrom sha256 e.entry_hash l := by
  rw [verifyFrom, if_neg (by simp [h1]), if_neg (by simp [← h2])]

theorem lastHash_cons {p : String} {e : AuditEntry} {l : List AuditEntry} :
    lastHash p (e :: l) = lastHash e.entry_hash l := by
  cases l <;> simp [lastHash, List.getLast?]

theorem lastHash_concat {p : String} {e : AuditEntry} {l : List AuditEntry} :
    lastHash p (l ++ [e]) = e.entry_hash := by
  simp [lastHash]

theorem verifyFrom_snoc {sha256 : String → String} {e : AuditEntry} :
    ∀ {l : List AuditEntry} {p : String},
      verifyFrom sha256 p l = true → e.prev_hash = lastHash p l →
      e.entry_hash = computeEntryHash sha256 e.toEntryCore →
      verifyFrom sha256 p (l ++ [e]) = true
  | [], p, _, h2, h3 => by
    rw [List.nil_append, verifyFrom_cons_true]
    exact ⟨by simpa [lastHash] using h2, h3, rfl⟩
  | x :: xs, p, h1, h2, h3 => by
    rw [verifyFrom_cons_true] at h1
    obtain ⟨hx1, hx2, hx3⟩ := h1
    rw [List.cons_append, verifyFrom_cons_true]
    exact ⟨hx1, hx2, verifyFrom_snoc hx3 (by rwa [lastHash_cons] at h2) h3⟩

theorem appendMany_invariant (sha256 : String → String) :
    ∀ (inputs : List AppendInput) (st : ChainState),
      verifyFrom sha256 GENESIS_HASH st.log = true →
      lastHash GENESIS_HASH st.log = st.prev_hash →
      verifyFrom sha256 GENESIS_HASH (appendMany sha256 st inputs).log = true ∧
        lastHash GENESIS_HASH (appendMany sha256 st inputs).log =
          (appendMany sha256 st inputs).prev_hash
  | [], st, h1, h2 => ⟨h1, h2⟩
  | inp :: rest, st, h1, h2 => by
    rw [appendMany]
    refine appendMany_invariant sha256 rest _ ?_ ?_
    · exact verifyFrom_snoc h1 (by simp [ChainState.append, h2]) (by simp [ChainState.append])
    · simp [ChainState.append, lastHash_concat]

theorem verifyFrom_set_mutation (sha256 : String → String) :
    ∀ (l : List AuditEntry) (p : String) (i : Nat) (hi : i < l.length) (m : FieldMutation),
      verifyFrom sha256 p l = true →
      detects sha256 (l.get ⟨i, hi⟩) m = true →
      verifyFrom sha256 p (l.set i (applyMutation m (l.get ⟨i, hi⟩))) = false
  | [], _, i, hi, _ => by simp at hi
  | e :: l, p, 0, _, m => by
    intro hv hd
    rw [verifyFrom_cons_true] at hv
    obtain ⟨h1, h2, _⟩ := hv
    simp only [List.get] at hd
    simp only [List.get, List.set]
    cases m with
    | prev_hash v =>
      refine verifyFrom_cons_false (Or.inl ?_)
      simp only [detects, ne_eq, decide_eq_true_eq] at hd
      simpa [applyMutation, h1] using hd
    | entry_hash v =>
      refine verifyFrom_cons_false (Or.inr ?_)
      simp only [detects, ne_eq, decide_eq_true_eq] at hd
      simpa [applyMutation, ← h2] using hd
    | seq v =>
      refine verifyFrom_cons_false (Or.inr ?_)
      simp only [detects, ne_eq, decide_eq_true_eq] at hd
      simp only [applyMutation] at hd ⊢
      rw [h2]
      exact fun hcontra => hd hcontra.symm
    | ts v =>
      refine verifyFrom_cons_false (Or.inr ?_)
      simp only [detects, ne_eq, decide_eq_true_eq] at hd
      simp only [applyMutation] at hd ⊢
      rw [h2]
      exact fun hcontra => hd hcontra.symm
    | event v =>
      refine verifyFrom_cons_false (Or.inr ?_)
      simp only [detects, ne_eq, decide_eq_true_eq] at hd
      simp only [applyMutation] at hd ⊢
      rw [h2]
      exact fun hcontra => hd hcontra.symm
    | src_ip v =>
      refine verifyFrom_cons_false (Or.inr ?_)
      simp only [detects, ne_eq, decide_eq_true_eq] at hd
      simp only [applyMutation] at hd ⊢
      rw [h2]
      exact fun hcontra => hd hcontra.symm
    | payload_hash v =>
      refine verifyFrom_cons_false (Or.inr ?_)
      simp only [detects, ne_eq, decide_eq_true_eq] at hd
      simp only [applyMutation] at hd ⊢
      rw [h2]
      exact fun hcontra => hd hcontra.symm
    | actor_hash v =>
      refine verifyFrom_cons_false (Or.inr ?_)
      simp only [detects, ne_eq, decide_eq_true_eq] at hd
      simp only [applyMutation] at hd ⊢
      rw [h2]
      exact fun hcontra => hd hcontra.symm
    | outcome v =>
      refine verifyFrom_cons_false (Or.inr ?_)
      simp only [detects, ne_eq, decide_eq_true_eq] at hd
      simp only [applyMutation] at hd ⊢
      rw [h2]
      exact fun hcontra => hd hcontra.symm
    | detail v =>
      refine verifyFrom_cons_false (Or.inr ?_)
      simp only [detects, ne_eq, decide_eq_true_eq] at hd
      simp only [applyMutation] at hd ⊢
      rw [h2]
      exact fun hcontra => hd hcontra.symm
  | e :: l, p, i + 1, hi, m => by
    intro hv hd
    rw [verifyFrom_cons_true] at hv
    obtain ⟨h1, h2, h3⟩ := hv
    simp only [List.get] at hd
    simp only [List.get, List.set]
    rw [verifyFrom_cons_of_valid h1 h2]
    exact verifyFrom_set_mutation sha256 l e.entry_hash i (by simpa using hi) m h3 hd

theorem verifyFrom_eraseIdx (sha256 : String → String) :
    ∀ (l : List AuditEntry) (p : String) (i : Nat) (hi : i < l.length),
      verifyFrom sha256 p l = true →
      i + 1 < l.length →
      (l.get ⟨i, hi⟩).entry_hash ≠ (l.get ⟨i, hi⟩).prev_hash →
      verifyFrom sha256 p (l.eraseIdx i) = false
  | [], _, i, hi => by simp at hi
  | e :: l, p, 0, _ => by
    intro hv hlen hne
    rw [verifyFrom_cons_true] at hv
    obtain ⟨h1, _, h3⟩ := hv
    simp only [List.get] at hne
    simp only [List.eraseIdx]
    match l, hlen with
    | e2 :: l', _ =>
      rw [verifyFrom_cons_true] at h3
      obtain ⟨h21, _, _⟩ := h3
      exact verifyFrom_cons_false (Or.inl (by rw [h21]; exact fun hc => hne (by rw [hc, h1])))
  | e :: l, p, i + 1, hi => by
    intro hv hlen hne
    rw [verifyFrom_cons_true] at hv
    obtain ⟨h1, h2, h3⟩ := hv
    simp only [List.get] at hne
    simp only [List.eraseIdx]
    rw [verifyFrom_cons_of_valid h1 h2]
    exact verifyFrom_eraseIdx sha256 l e.entry_hash i (by simpa using hi) h3
      (by simpa using hlen) hne

end ChainAudit

namespace ChainAudit

/-- C1 (amended): for any sequence of N entries appended by
`ChainedAuditLog.append` on a fresh log, `verify_chain` returns ok; mutating
any single field of any entry so that the recomputed entry hash changes
(for `prev_hash`/`entry_hash`, so that the stored value changes) makes
`verify_chain` return not-ok; and deleting any one entry *other than the
last* whose `entry_hash` differs from its `prev_hash` makes `verify_chain`
return not-ok.  (Deleting the final entry is not detected — see the
counterexample.) -/
theorem chain_append_verify_mutate_delete (sha256 : String → String)
    (inputs : List AppendInput) :
    verifyChain sha256 (builtLog sha256 inputs) = true
    ∧ (∀ (i : Nat) (hi : i < (builtLog sha256 inputs).length) (m : FieldMutation),
        detects sha256 ((builtLog sha256 inputs).get ⟨i, hi⟩) m = true →
        verifyChain sha256
          ((builtLog sha256 inputs).set i
            (applyMutation m ((builtLog sha256 inputs).get ⟨i, hi⟩))) = false)
    ∧ (∀ (i : Nat) (hi : i < (builtLog sha256 inputs).length),
        i + 1 < (builtLog sha256 inputs).length →
        ((builtLog sha256 inputs).get ⟨i, hi⟩).entry_hash ≠
          ((builtLog sha256 inputs).get ⟨i, hi⟩).prev_hash →
        verifyChain sha256 ((builtLog sha256 inputs).eraseIdx i) = false) := by
  have hok : verifyFrom sha256 GENESIS_HASH (builtLog sha256 inputs) = true :=
    (appendMany_invariant sha256 inputs initState (by rfl) (by rfl)).1
  refine ⟨hok, ?_, ?_⟩
  · intro i hi m hd
    exact verifyFrom_set_mutation sha256 (builtLog sha256 inputs) GENESIS_HASH i hi m hok hd
  · intro i hi hlen hne
    exact verifyFrom_eraseIdx sha256 (builtLog sha256 inputs) GENESIS_HASH i hi hok hlen hne

/-- Witness for `chain_append_verify_mutate_delete` at a concrete
two-entry chain: the honest chain verifies; rewriting entry 0's `event`
field breaks verification; so does deleting entry 0. -/
theorem chain_append_verify_mutate_delete_witness :
    verifyChain idSha (builtLog idSha sampleInputs) = true
    ∧ verifyChain idSha
        ((builtLog idSha sampleInputs).set 0
          (applyMutation (.event "tampered")
            ((builtLog idSha sampleInputs).get ⟨0, by decide⟩))) = false
    ∧ verifyChain idSha ((builtLog idSha sampleInputs).eraseIdx 0) = false := by
  obtain ⟨h1, h2, h3⟩ := chain_append_verify_mutate_delete idSha sampleInputs
  exact ⟨h1, h2 0 (by decide) (.event "tampered") (by decide),
    h3 0 (by decide) (by decide) (by decide)⟩

set_option maxRecDepth 4000 in
/-- C1 counterexample: on the concrete two-entry chain, deleting the last
entry (index 1) leaves a log that `verify_chain` still reports as intact —
a single-entry deletion the claim says is always detected. -/
theorem chain_delete_last_undetected :
    (builtLog idSha sampleInputs).length = 2
    ∧ verifyChain idSha ((builtLog idSha sampleInputs).eraseIdx 1) = true := by
  decide

/-- C10: constructing the log over an existing file whose last line does
not parse does not raise: `_bootstrap` silently resets to sequence 0 and
the genesis sentinel, and the next `append` writes an entry with `seq = 1`
and `prev_hash` equal to the genesis sentinel even though prior lines
exist in the file. -/
theorem bootstrap_corrupt_resets (lines : List LineParse) (prior : List AuditEntry)
    (sha256 : String → String) (inp : AppendInput)
    (h : lines.getLast? = some .invalid) :
    bootstrap (some lines) = (0, GENESIS_HASH)
    ∧ ∃ e : AuditEntry,
        ((⟨(bootstrap (some lines)).1, (bootstrap (some lines)).2, prior⟩ : ChainState).append
            sha256 inp).1.log = prior ++ [e]
        ∧ e.seq = 1 ∧ e.prev_hash = GENESIS_HASH := by
  have hb : bootstrap (some lines) = (0, GENESIS_HASH) := by
    rw [bootstrap, h]
  refine ⟨hb, ?_⟩
  rw [hb]
  exact ⟨_, rfl, rfl, rfl⟩

/-- Witness for `bootstrap_corrupt_resets`: a concrete two-line file whose
last line is invalid JSON. -/
theorem bootstrap_corrupt_resets_witness :
    bootstrap (some corruptTail) = (0, GENESIS_HASH)
    ∧ ∃ e : AuditEntry,
        ((⟨(bootstrap (some corruptTail)).1, (bootstrap (some corruptTail)).2, []⟩ :
            ChainState).append idSha
          { ts := "t9", event := "ev", src_ip := "ip", payload_hash := "p"
            actor_hash := "a", outcome := "ALLOWED", detail := "d" }).1.log = [] ++ [e]
        ∧ e.seq = 1 ∧ e.prev_hash = GENESIS_HASH :=
  bootstrap_corrupt_resets corruptTail [] idSha _ (by decide)

end ChainAudit

namespace Attest

theorem b64Val_b64Char : ∀ n < 64, b64Val (b64Char n) = some n := by
  decide

theorem b64Char_ne_pad : ∀ n < 64, b64Char n ≠ '=' := by
  decide

theorem b64DataPre_cons_alpha {n : Nat} (h : n < 64) (cs : List Char) :
    b64DataPre (b64Char n :: cs) = (n :: (b64DataPre cs).1, (b64DataPre cs).2) := by
  rw [b64DataPre, if_neg (b64Char_ne_pad n h), b64Val_b64Char n h]

theorem b64_enc_scan :
    ∀ bs : List Nat, (∀ b ∈ bs, b < 256) →
      ∃ vals, b64DataPre ((b64encode bs).data ++ ['=', '=']) = (vals, true)
        ∧ b64Quads vals = some bs
  | [], _ => ⟨[], by decide, rfl⟩
  | [a], h => by
    have ha : a < 256 := h a (by simp)
    refine ⟨[a / 4, a % 4 * 16], ?_, ?_⟩
    · show b64DataPre (b64Char (a / 4) :: b64Char (a % 4 * 16) :: '=' :: '=' :: '=' :: '=' :: []) = _
      rw [b64DataPre_cons_alpha (by omega), b64DataPre_cons_alpha (by omega)]
      rfl
    · show some [a / 4 * 4 + a % 4 * 16 / 16] = some [a]
      congr 2
      omega
  | [a, b], h => by
    have ha : a < 256 := h a (by simp)
    have hb : b < 256 := h b (by simp)
    refine ⟨[a / 4, a % 4 * 16 + b / 16, b % 16 * 4], ?_, ?_⟩
    · show b64DataPre (b64Char (a / 4) :: b64Char (a % 4 * 16 + b / 16) ::
        b64Char (b % 16 * 4) :: '=' :: '=' :: '=' :: []) = _
      rw [b64DataPre_cons_alpha (by omega), b64DataPre_cons_alpha (by omega),
        b64DataPre_cons_alpha (by omega)]
      rfl
    · show some [a / 4 * 4 + (a % 4 * 16 + b / 16) / 16,
        (a % 4 * 16 + b / 16) % 16 * 16 + b % 16 * 4 / 4] = some [a, b]
      congr 3 <;> omega
  | a :: b :: c :: rest, h => by
    have ha : a < 256 := h a (by simp)
    have hb : b < 256 := h b (by simp)
    have hc : c < 256 := h c (by simp)
    obtain ⟨vals, hscan, hquads⟩ := b64_enc_scan rest (fun x hx => h x (by simp [hx]))
    refine ⟨a / 4 :: (a % 4 * 16 + b / 16) :: (b % 16 * 4 + c / 64) :: c % 64 :: vals, ?_, ?_⟩
    · have hdata : (b64encode (a :: b :: c :: rest)).data ++ ['=', '='] =
        b64Char (a / 4) :: b64Char (a % 4 * 16 + b / 16) :: b64Char (b % 16 * 4 + c / 64) ::
          b64Char (c % 64) :: ((b64encode rest).data ++ ['=', '=']) := by
        show ([b64Char (a / 4), b64Char (a % 4 * 16 + b / 16), b64Char (b % 16 * 4 + c / 64),
          b64Char (c % 64)] ++ (b64encode rest).data) ++ ['=', '='] = _
        simp
      rw [hdata, b64DataPre_cons_alpha (by omega), b64DataPre_cons_alpha (by omega),
        b64DataPre_cons_alpha (by omega), b64DataPre_cons_alpha (by omega), hscan]
    · show b64Quads (a / 4 :: (a % 4 * 16 + b / 16) :: (b % 16 * 4 + c / 64) :: c % 64 :: vals)
        = _
      rw [b64Quads, hquads]
      have e1 : a / 4 * 4 + (a % 4 * 16 + b / 16) / 16 = a := by omega
      have e2 : (a % 4 * 16 + b / 16) % 16 * 16 + (b % 16 * 4 + c / 64) / 4 = b := by omega
      have e3 : (b % 16 * 4 + c / 64) % 4 * 64 + c % 64 = c := by omega
      rw [e1, e2, e3]

theorem b64_roundtrip (bs : List Nat) (h : ∀ b ∈ bs, b < 256) :
    b64decode (b64encode bs ++ "==") = some bs := by
  obtain ⟨vals, hscan, hquads⟩ := b64_enc_scan bs h
  have hdata : (b64encode bs ++ "==").data = (b64encode bs).data ++ ['=', '='] := by
    simp [String.data_append]
  rw [b64decode, hdata, hscan]
  simpa using hquads

theorem b64encode_ne_empty : ∀ {bs : List Nat}, bs ≠ [] → b64encode bs ≠ ""
  | [], h => absurd rfl h
  | [_], _ => by simp [b64encode, String.ext_iff]
  | [_, _], _ => by simp [b64encode, String.ext_iff]
  | _ :: _ :: _ :: _, _ => by simp [b64encode, String.ext_iff, String.data_append]

end Attest

namespace Attest

theorem verifyAttestation_eval (verifyOk : String → List Nat → Bool) (a : Attestation)
    (hne : ¬ a.signature = "") {s : List Nat}
    (hdec : b64decode (a.signature ++ "==") = some s) :
    verifyAttestation verifyOk a =
      if verifyOk (canonicalJson a.toAttCore) s then .ok () else .error .invalidSignature := by
  rw [verifyAttestation, if_neg hne, hdec]

/-- C2 (amended): with a keypair's signer `sign` (deterministic,
non-empty byte-bounded signatures) and its verifier `verifyOk` (accepting
exactly `sign`'s signature of a message), `verify_attestation` of
`sign_attestation`'s output does not raise; mutating any field other than
the signature raises `AttestationVerificationError` whenever the mutated
canonical JSON is signed differently (no signature collision); mutating
the signature field raises whenever the new string no longer decodes to
the original signature bytes (base64-malleable rewrites that preserve the
decoded bytes are *not* caught — see the counterexample); and verifying
with a different keypair's public key (whose verifier rejects this
signer's signature) always raises. -/
theorem attestation_roundtrip_tamper
    (sign : String → List Nat) (verifyOk verifyOk2 : String → List Nat → Bool)
    (patch_id patch_hash : String) (checks : List (String × String))
    (outcome timestamp : String) (a : Attestation)
    (ha : a = signAttestation sign patch_id patch_hash checks outcome timestamp)
    (hbytes : ∀ b ∈ sign (canonicalJson a.toAttCore), b < 256)
    (hne : sign (canonicalJson a.toAttCore) ≠ [])
    (hsound : ∀ m s, verifyOk m s = true ↔ s = sign m)
    (hother : verifyOk2 (canonicalJson a.toAttCore) (sign (canonicalJson a.toAttCore)) = false) :
    verifyAttestation verifyOk a = .ok ()
    ∧ (∀ m : AttMutation,
        sign (canonicalJson (applyAttMutation m a).toAttCore) ≠
          sign (canonicalJson a.toAttCore) →
        verifyAttestation verifyOk (applyAttMutation m a) = .error .invalidSignature)
    ∧ (∀ v : String,
        b64decode (v ++ "==") ≠ some (sign (canonicalJson a.toAttCore)) →
        Util.exceptOk (verifyAttestation verifyOk (applyAttMutation (.signature v) a)) = false)
    ∧ verifyAttestation verifyOk2 a = .error .invalidSignature := by
  have hsig : a.signature = b64encode (sign (canonicalJson a.toAttCore)) := by
    rw [ha]
    rfl
  have hsigne : ¬ a.signature = "" := by
    rw [hsig]
    exact b64encode_ne_empty hne
  have hdec : b64decode (a.signature ++ "==") = some (sign (canonicalJson a.toAttCore)) := by
    rw [hsig]
    exact b64_roundtrip _ hbytes
  refine ⟨?_, ?_, ?_, ?_⟩
  · rw [verifyAttestation_eval verifyOk a hsigne hdec, if_pos ((hsound _ _).mpr rfl)]
  · intro m hm
    cases m with
    | signature v => exact absurd rfl hm
    | patch_id v =>
      rw [verifyAttestation_eval verifyOk (applyAttMutation (.patch_id v) a) hsigne hdec,
        if_neg (by rw [hsound]; exact fun hc => hm hc.symm)]
    | patch_hash v =>
      rw [verifyAttestation_eval verifyOk (applyAttMutation (.patch_hash v) a) hsigne hdec,
        if_neg (by rw [hsound]; exact fun hc => hm hc.symm)]
    | policy v =>
      rw [verifyAttestation_eval verifyOk (applyAttMutation (.policy v) a) hsigne hdec,
        if_neg (by rw [hsound]; exact fun hc => hm hc.symm)]
    | timestamp v =>
      rw [verifyAttestation_eval verifyOk (applyAttMutation (.timestamp v) a) hsigne hdec,
        if_neg (by rw [hsound]; exact fun hc => hm hc.symm)]
    | checks v =>
      rw [verifyAttestation_eval verifyOk (applyAttMutation (.checks v) a) hsigne hdec,
        if_neg (by rw [hsound]; exact fun hc => hm hc.symm)]
    | outcome v =>
      rw [verifyAttestation_eval verifyOk (applyAttMutation (.outcome v) a) hsigne hdec,
        if_neg (by rw [hsound]; exact fun hc => hm hc.symm)]
  · intro v hv
    by_cases hv0 : v = ""
    · rw [show verifyAttestation verifyOk (applyAttMutation (.signature v) a) =
        .error .missingSignature from by
          rw [verifyAttestation,
            if_pos (show (applyAttMutation (.signature v) a).signature = "" from hv0)]]
      rfl
    · rcases hd : b64decode (v ++ "==") with _ | s
      · rw [show verifyAttestation verifyOk (applyAttMutation (.signature v) a) =
          .error .badBase64 from by
            rw [verifyAttestation,
              if_neg (show ¬ (applyAttMutation (.signature v) a).signature = "" from hv0),
              show b64decode ((applyAttMutation (.signature v) a).signature ++ "==") = none
                from hd]]
        rfl
      · rw [verifyAttestation_eval verifyOk (applyAttMutation (.signature v) a) hv0
          (show b64decode ((applyAttMutation (.signature v) a).signature ++ "==") = some s
            from hd),
          if_neg (by rw [hsound]; rintro rfl; exact hv hd)]
        rfl
  · rw [verifyAttestation_eval verifyOk2 a hsigne hdec, if_neg (by simp [hother])]

end Attest

namespace Attest

set_option maxRecDepth 8000 in
/-- Witness for `attestation_roundtrip_tamper` at the concrete keypair
`toySignLen`/`toyVerifyLen` and attestation `attSample`: verification
succeeds on the signed attestation, fails after an `outcome` rewrite,
fails after a signature rewrite to `"***"`, and fails under the other
keypair's verifier. -/
theorem attestation_roundtrip_tamper_witness :
    verifyAttestation toyVerifyLen attSample = .ok ()
    ∧ verifyAttestation toyVerifyLen (applyAttMutation (.outcome "X") attSample) =
        .error .invalidSignature
    ∧ Util.exceptOk (verifyAttestation toyVerifyLen
        (applyAttMutation (.signature "***") attSample)) = false
    ∧ verifyAttestation toyVerifyOther attSample = .error .invalidSignature := by
  obtain ⟨h1, h2, h3, h4⟩ :=
    attestation_roundtrip_tamper toySignLen toyVerifyLen toyVerifyOther
      "0a1b2c3d-0000" "deadbeef"
      [("structural", "PASS"), ("sast", "SKIP"), ("secrets", "SKIP"), ("deps", "PASS")]
      "APPROVED" "2026-01-01T00:00:00Z" attSample rfl
      (by intro b hb; simp [toySignLen] at hb; omega)
      (by simp [toySignLen])
      (by intro m s; simp [toyVerifyLen])
      (by decide)
  exact ⟨h1, h2 (.outcome "X") (by decide), h3 "***" (by decide), h4⟩

set_option maxRecDepth 8000 in
/-- C2 counterexample: a sound keypair (`toyVerifyConst` accepts exactly
`toySignConst`'s signatures), and a mutation of the signed attestation's
`signature` field — `"QQ=="` rewritten to `"QR=="` — that
`verify_attestation` accepts without raising: Python's lenient base64
decoding maps both strings to the same signature bytes. -/
theorem attestation_signature_mutation_accepted :
    (∀ m s, toyVerifyConst m s = true ↔ s = toySignConst m)
    ∧ applyAttMutation (.signature "QR==") attConst ≠ attConst
    ∧ (applyAttMutation (.signature "QR==") attConst).signature ≠ attConst.signature
    ∧ verifyAttestation toyVerifyConst (applyAttMutation (.signature "QR==") attConst) =
        .ok () := by
  refine ⟨?_, by decide, by decide, by rfl⟩
  intro m s
  simp [toyVerifyConst, toySignConst]

end Attest

namespace Integrator

/-- C3: the integrator mutates the repository only behind the full gate
sequence — an attestation file that exists, parses and verifies, with an
outcome that is APPROVED or MANUAL_REQUIRED-with-confirmation (outcomes
range over the attestation enum); and in particular a REJECTED outcome, or
MANUAL_REQUIRED without confirmation, returns false with the repository
untouched. -/
theorem integrator_outcome_gates (env : IntegratorEnv) (repo : GitRepo) (patch_id : String)
    (dry_run human_confirmed : Bool)
    (hdom : ∀ att : AttDict, env.attFile = some (some att) →
      att.outcome.getD "UNKNOWN" = "APPROVED" ∨ att.outcome.getD "UNKNOWN" = "REJECTED" ∨
        att.outcome.getD "UNKNOWN" = "MANUAL_REQUIRED") :
    ((integratePatch env repo patch_id dry_run human_confirmed).2 ≠ repo →
      ∃ att : AttDict, env.attFile = some (some att) ∧ env.verifies att = true ∧
        (att.outcome.getD "UNKNOWN" = "APPROVED" ∨
          (att.outcome.getD "UNKNOWN" = "MANUAL_REQUIRED" ∧ human_confirmed = true)))
    ∧ (∀ att : AttDict, env.attFile = some (some att) →
        att.outcome.getD "UNKNOWN" = "REJECTED" →
        integratePatch env repo patch_id dry_run human_confirmed = (.ret false, repo))
    ∧ (∀ att : AttDict, env.attFile = some (some att) →
        att.outcome.getD "UNKNOWN" = "MANUAL_REQUIRED" → human_confirmed = false →
        integratePatch env repo patch_id dry_run human_confirmed = (.ret false, repo)) := by
  rcases hatt : env.attFile with _ | oatt
  · refine ⟨fun hc => absurd (by simp [integratePatch, hatt]) hc, ?_, ?_⟩ <;>
      intro att hatt2 <;> simp at hatt2
  · rcases oatt with _ | att
    · refine ⟨fun hc => absurd (by simp [integratePatch, hatt]) hc, ?_, ?_⟩ <;>
        intro att hatt2 <;> simp at hatt2
    · by_cases hv : env.verifies att = true
      · by_cases ho1 : att.outcome.getD "UNKNOWN" = "REJECTED"
        · refine ⟨fun hc => absurd ?_ hc, ?_, ?_⟩
          · simp [integratePatch, hatt, hv, ho1]
          · intro att2 hatt2 _
            simp [integratePatch, hatt, hv, ho1]
          · intro att2 hatt2 ho2 _
            obtain rfl : att2 = att := by simpa using hatt2.symm
            rw [ho1] at ho2
            exact absurd ho2 (by decide)
        · by_cases ho2 : att.outcome.getD "UNKNOWN" = "MANUAL_REQUIRED" ∧ ¬ human_confirmed
          · refine ⟨fun hc => absurd ?_ hc, ?_, ?_⟩
            · simp [integratePatch, hatt, hv, ho1, ho2]
            · intro att2 hatt2 ho
              obtain rfl : att2 = att := by simpa using hatt2.symm
              exact absurd ho ho1
            · intro att2 hatt2 _ _
              simp [integratePatch, hatt, hv, ho1, ho2]
          · refine ⟨fun _ => ⟨att, rfl, hv, ?_⟩, ?_, ?_⟩
            · rcases hdom att hatt with h | h | h
              · exact Or.inl h
              · exact absurd h ho1
              · refine Or.inr ⟨h, ?_⟩
                by_contra hcf
                exact ho2 ⟨h, by simpa using hcf⟩
            · intro att2 hatt2 ho
              obtain rfl : att2 = att := by simpa using hatt2.symm
              exact absurd ho ho1
            · intro att2 hatt2 ho hcf
              obtain rfl : att2 = att := by simpa using hatt2.symm
              exact absurd ⟨ho, by simp [hcf]⟩ ho2
      · refine ⟨fun hc => absurd ?_ hc, ?_, ?_⟩
        · simp [integratePatch, hatt, hv]
        · intro att2 hatt2 _
          obtain rfl : att2 = att := by simpa using hatt2.symm
          simp [integratePatch, hatt, hv]
        · intro att2 hatt2 _ _
          obtain rfl : att2 = att := by simpa using hatt2.symm
          simp [integratePatch, hatt, hv]

end Integrator

namespace Integrator

/-- Witness for `integrator_outcome_gates`: with a verified REJECTED
attestation the integrator returns false and leaves the repository
unchanged even with the confirmation flag set; with a verified
MANUAL_REQUIRED attestation and no confirmation it likewise returns false
with no mutation. -/
theorem integrator_outcome_gates_witness :
    integratePatch
        { envPartial with attFile := some (some { outcome := some "REJECTED", patch_hash := some "H" }) }
        repoSample "0123456789ab" false true = (.ret false, repoSample)
    ∧ integratePatch
        { envPartial with attFile := some (some { outcome := some "MANUAL_REQUIRED", patch_hash := some "H" }) }
        repoSample "0123456789ab" false false = (.ret false, repoSample) := by
  constructor
  · obtain ⟨_, h2, _⟩ := integrator_outcome_gates
      { envPartial with attFile := some (some { outcome := some "REJECTED", patch_hash := some "H" }) }
      repoSample "0123456789ab" false true
      (by intro att hatt
          obtain rfl : att = { outcome := some "REJECTED", patch_hash := some "H" } := by
            simpa using hatt.symm
          decide)
    exact h2 { outcome := some "REJECTED", patch_hash := some "H" } rfl (by decide)
  · obtain ⟨_, _, h3⟩ := integrator_outcome_gates
      { envPartial with attFile := some (some { outcome := some "MANUAL_REQUIRED", patch_hash := some "H" }) }
      repoSample "0123456789ab" false false
      (by intro att hatt
          obtain rfl : att = { outcome := some "MANUAL_REQUIRED", patch_hash := some "H" } := by
            simpa using hatt.symm
          decide)
    exact h3 { outcome := some "MANUAL_REQUIRED", patch_hash := some "H" } rfl (by decide) rfl

/-- C4: for any environment in which the attestation is present and
parses, and the current on-disk patch bytes hash to a value different
from the attested `patch_hash`, `integrate_patch` returns false and the
repository is exactly unchanged — no file write, no branch, no commit
(the hash gate precedes every mutating step). -/
theorem integrator_toctou_aborts (env : IntegratorEnv) (repo : GitRepo) (patch_id : String)
    (dry_run human_confirmed : Bool) (att : AttDict) (bytes : List Nat)
    (hatt : env.attFile = some (some att))
    (hbytes : env.patchBytes = some bytes)
    (hmismatch : ¬ env.sha256 bytes = att.patch_hash.getD "") :
    integratePatch env repo patch_id dry_run human_confirmed = (.ret false, repo) := by
  by_cases hv : env.verifies att = true
  · by_cases ho1 : att.outcome.getD "UNKNOWN" = "REJECTED"
    · simp [integratePatch, hatt, hv, ho1]
    · by_cases ho2 : att.outcome.getD "UNKNOWN" = "MANUAL_REQUIRED" ∧ ¬ human_confirmed
      · simp [integratePatch, hatt, hv, ho1, ho2]
      · simp [integratePatch, hatt, hv, ho1, ho2, hbytes, hmismatch]
  · simp [integratePatch, hatt, hv]

/-- Witness for `integrator_toctou_aborts`: the concrete tampered
environment (attested hash `"H"`, current hash `"X"`) aborts with the
repository unchanged. -/
theorem integrator_toctou_aborts_witness :
    integratePatch envTampered repoSample "0123456789ab" false false =
      (.ret false, repoSample) :=
  integrator_toctou_aborts envTampered repoSample "0123456789ab" false false
    attApproved [1] rfl rfl (by decide)

/-- C5 (code evaluated at the failing input): a fully gated, approved
patch with two target files, of which the second does not exist in the
repository, makes `integrate_patch` return false and delete the
integration branch — but the first file's modification survives in the
working tree: the revert (`git checkout -`; `git branch -D`) does not
restore uncommitted file contents, so the repository is NOT left
unchanged. -/
theorem integrator_partial_application_persists :
    (integratePatch envPartial repoSample "0123456789ab" false false).1 = .ret false
    ∧ lookupFile repoSample.files "a.py" = some ["old1", "old2"]
    ∧ lookupFile (integratePatch envPartial repoSample "0123456789ab" false false).2.files
        "a.py" = some ["NEW", "old2"]
    ∧ (integratePatch envPartial repoSample "0123456789ab" false false).2.branches = ["main"]
    ∧ (integratePatch envPartial repoSample "0123456789ab" false false).2.commits = [] := by
  decide

theorem insertHunk_map (g : Patch.Hunk → Patch.Hunk)
    (hg : ∀ h, (g h).start_line = h.start_line) (x : Patch.Hunk) :
    ∀ l : List Patch.Hunk, insertHunk (g x) (l.map g) = (insertHunk x l).map g
  | [] => rfl
  | y :: ys => by
    simp only [List.map_cons, insertHunk, hunkKey, hg]
    by_cases hk : (y.start_line.getD 1 : Int) < x.start_line.getD 1
    · rw [if_pos hk, if_pos hk, insertHunk_map g hg x ys]
      rfl
    · rw [if_neg hk, if_neg hk]
      rfl

theorem sortHunks_map (g : Patch.Hunk → Patch.Hunk)
    (hg : ∀ h, (g h).start_line = h.start_line) :
    ∀ l : List Patch.Hunk, sortHunks (l.map g) = (sortHunks l).map g
  | [] => rfl
  | x :: xs => by
    simp only [List.map_cons, sortHunks]
    rw [sortHunks_map g hg xs, insertHunk_map g hg]

/-- C9: `_apply_hunks` never consults `old_lines` — replacing every hunk's
`old_lines` field by an arbitrary other value leaves its output unchanged,
for every line list and every hunk list; the applied result depends only
on `start_line`, `end_line` and `new_lines`. -/
theorem applyHunks_ignores_old_lines (lines : List String) (hunks : List Patch.Hunk)
    (f : Patch.Hunk → Option (List String)) :
    applyHunks lines (hunks.map fun h => { h with old_lines := f h }) =
      applyHunks lines hunks := by
  unfold applyHunks
  rw [sortHunks_map (fun h => { h with old_lines := f h }) (fun _ => rfl) hunks,
    ← List.map_reverse, List.foldl_map]

end Integrator

namespace JailFS

theorem hasLooseColon_cons_of {l : List Char} (x : Char) (h : hasLooseColon l = true) :
    hasLooseColon (x :: l) = true := by
  cases l with
  | nil => simp [hasLooseColon] at h
  | cons d rest => simp [hasLooseColon, h]

theorem hasLooseColon_cons_ne {l : List Char} {x : Char} (hx : x ≠ ':') :
    hasLooseColon (x :: l) = hasLooseColon l := by
  cases l with
  | nil => simp [hasLooseColon, hx]
  | cons d rest => simp [hasLooseColon, hx]

theorem stripPairs_cons_ne (b : Char) {x : Char} (hx : x ≠ ':') (l : List Char) :
    Util.stripPairs ':' b (x :: l) = x :: Util.stripPairs ':' b l := by
  cases l with
  | nil => rfl
  | cons y rest =>
    rw [Util.stripPairs, if_neg (by simp [hx])]

theorem stripPairs_keeps_loose (b : Char) (hb : b = '/' ∨ b = '\\') :
    ∀ l, hasLooseColon l = true → hasLooseColon (Util.stripPairs ':' b l) = true
  | [], h => by simp [hasLooseColon] at h
  | [c], h => h
  | x :: y :: rest, h => by
    by_cases hm : x = ':' ∧ y = b
    · rw [Util.stripPairs, if_pos hm]
      have hyc : y ≠ ':' := by
        rw [hm.2]
        rcases hb with rfl | rfl <;> simp
      have hyin : y = '/' ∨ y = '\\' ∨ y = ':' := by
        rw [hm.2]
        rcases hb with rfl | rfl
        · exact Or.inl rfl
        · exact Or.inr (Or.inl rfl)
      rw [hasLooseColon] at h
      simp only [Bool.or_eq_true, decide_eq_true_eq] at h
      rcases h with ⟨_, hcontra⟩ | h
      · exact absurd hyin hcontra
      · rw [hasLooseColon_cons_ne hyc] at h
        exact stripPairs_keeps_loose b hb rest h
    · rw [Util.stripPairs, if_neg hm]
      rw [hasLooseColon] at h
      simp only [Bool.or_eq_true, decide_eq_true_eq] at h
      rcases h with ⟨rfl, hy⟩ | h
      · push_neg at hy
        obtain ⟨hy1, hy2, hy3⟩ := hy
        rw [stripPairs_cons_ne b hy3]
        cases hs : Util.stripPairs ':' b rest with
        | nil => simp [hasLooseColon, hy1, hy2, hy3]
        | cons z zs => simp [hasLooseColon, hy1, hy2, hy3]
      · exact hasLooseColon_cons_of x (stripPairs_keeps_loose b hb (y :: rest) h)

theorem hasLooseColon_contains : ∀ l, hasLooseColon l = true → l.contains ':' = true
  | [c], h => by
    simp only [hasLooseColon, decide_eq_true_eq] at h
    simp [List.contains, h]
  | x :: y :: rest, h => by
    rw [hasLooseColon] at h
    simp only [Bool.or_eq_true, decide_eq_true_eq] at h
    rcases h with ⟨rfl, _⟩ | h
    · simp [List.contains]
    · have := hasLooseColon_contains (y :: rest) h
      simp only [List.contains] at this ⊢
      simp_all

theorem adsStripped_contains_of_loose {raw : List Char} (h : hasLooseColon raw = true) :
    (Util.adsStripped raw).contains ':' = true := by
  exact hasLooseColon_contains _
    (stripPairs_keeps_loose '\\' (Or.inr rfl) _
      (stripPairs_keeps_loose '/' (Or.inl rfl) raw h))

theorem validateRaw_none_iff (raw : String) : validateRaw raw = none ↔
    raw.data.contains (Char.ofNat 0) = false
    ∧ (Util.adsStripped raw.data).contains ':' = false
    ∧ (nonEmptyParts raw).contains ['.', '.'] = false
    ∧ (nonEmptyParts raw).length ≤ MAX_PATH_DEPTH
    ∧ (nonEmptyParts raw).any isReservedSegment = false
    ∧ (nonEmptyParts raw).any isForbiddenSegment = false := by
  unfold validateRaw
  split_ifs with h1 h2 <;> simp_all [MAX_PATH_DEPTH] <;>
    split_ifs with h3 h4 h5 h6 <;> simp_all <;> omega

end JailFS

namespace JailFS

theorem resolve_validate_error {root : List (List Char)}
    {fsReal : List (List Char) → Option (List (List Char))} {raw : String}
    (h : validateRaw raw ≠ none) : Util.exceptOk (resolve root fsReal raw) = false := by
  rcases hv : validateRaw raw with _ | e
  · exact absurd hv h
  · simp [resolve, hv, Util.exceptOk]

/-- C6 (amended): `Jail.resolve` raises `JailViolation` for every string
containing a NUL byte; a colon at the end or followed by anything other
than a slash, backslash or colon (the code deletes `:/` and `:\`
drive-like pairs before its ADS check, so e.g. `foo:/bar` is allowed); a
literal `..` segment; more than 8 segments that are non-empty and not `.`;
a segment whose first-dot-stripped upper-cased name is a reserved Windows
device name; or a forbidden directory name.  For a plain relative path
with none of these whose resolved candidate is no symlink out of the jail,
`resolve` returns a path inside the jail root. -/
theorem jail_resolve_contract (root : List (List Char))
    (fsReal : List (List Char) → Option (List (List Char))) (raw : String) :
    (raw.data.contains (Char.ofNat 0) = true →
      Util.exceptOk (resolve root fsReal raw) = false)
    ∧ (hasLooseColon raw.data = true → Util.exceptOk (resolve root fsReal raw) = false)
    ∧ ((nonEmptyParts raw).contains ['.', '.'] = true →
      Util.exceptOk (resolve root fsReal raw) = false)
    ∧ (MAX_PATH_DEPTH < (nonEmptyParts raw).length →
      Util.exceptOk (resolve root fsReal raw) = false)
    ∧ ((nonEmptyParts raw).any isReservedSegment = true →
      Util.exceptOk (resolve root fsReal raw) = false)
    ∧ ((nonEmptyParts raw).any isForbiddenSegment = true →
      Util.exceptOk (resolve root fsReal raw) = false)
    ∧ (validateRaw raw = none → Util.startsWithSlash raw = false →
      (∀ real, fsReal (candidateSegs root raw) = some real →
        root.isPrefixOf real = true) →
      resolve root fsReal raw = .ok (candidateSegs root raw)
      ∧ root.isPrefixOf (candidateSegs root raw) = true) := by
  refine ⟨?_, ?_, ?_, ?_, ?_, ?_, ?_⟩
  · intro h
    refine resolve_validate_error fun hn => ?_
    rw [validateRaw_none_iff] at hn
    rw [h] at hn
    exact absurd hn.1 (by simp)
  · intro h
    refine resolve_validate_error fun hn => ?_
    rw [validateRaw_none_iff] at hn
    rw [adsStripped_contains_of_loose h] at hn
    exact absurd hn.2.1 (by simp)
  · intro h
    refine resolve_validate_error fun hn => ?_
    rw [validateRaw_none_iff] at hn
    rw [h] at hn
    exact absurd hn.2.2.1 (by simp)
  · intro h
    refine resolve_validate_error fun hn => ?_
    rw [validateRaw_none_iff] at hn
    omega
  · intro h
    refine resolve_validate_error fun hn => ?_
    rw [validateRaw_none_iff] at hn
    rw [h] at hn
    exact absurd hn.2.2.2.2.1 (by simp)
  · intro h
    refine resolve_validate_error fun hn => ?_
    rw [validateRaw_none_iff] at hn
    rw [h] at hn
    exact absurd hn.2.2.2.2.2 (by simp)
  · intro hval habs hfs
    have hcand : root.isPrefixOf (candidateSegs root raw) = true := by
      rw [candidateSegs, habs]
      simp [List.isPrefixOf_iff_prefix]
    refine ⟨?_, hcand⟩
    rw [resolve, hval]
    rcases hreal : fsReal (candidateSegs root raw) with _ | real
    · simp [hcand, hreal]
    · simp [hcand, hreal, hfs real hreal]

/-- Witness for `jail_resolve_contract`: a traversal string and an ADS
string are rejected, and a plain relative path resolves inside the
concrete jail root. -/
theorem jail_resolve_contract_witness :
    Util.exceptOk (resolve rootSample fsEmpty "a/../b") = false
    ∧ Util.exceptOk (resolve rootSample fsEmpty "file:stream") = false
    ∧ resolve rootSample fsEmpty "patches/x.json" =
        .ok (candidateSegs rootSample "patches/x.json")
    ∧ rootSample.isPrefixOf (candidateSegs rootSample "patches/x.json") = true := by
  obtain ⟨_, h2, h3, _, _, _, h7⟩ := jail_resolve_contract rootSample fsEmpty "a/../b"
  obtain ⟨_, h2b, _, _, _, _, _⟩ := jail_resolve_contract rootSample fsEmpty "file:stream"
  obtain ⟨_, _, _, _, _, _, h7c⟩ := jail_resolve_contract rootSample fsEmpty "patches/x.json"
  have hc := h7c (by decide) (by decide) (by intro real hr; simp [fsEmpty] at hr)
  exact ⟨h3 (by decide), h2b (by decide), hc.1, hc.2⟩

/-- C6 counterexample: `"foo:/bar"` contains a colon that is not part of a
Windows drive prefix, yet `Jail.resolve` accepts it — the ADS check only
rejects colons not written as `:/` or `:\` pairs. -/
theorem jail_colon_accepted :
    "foo:/bar".data.contains ':' = true
    ∧ validateRaw "foo:/bar" = none
    ∧ resolve rootSample fsEmpty "foo:/bar" =
        .ok (rootSample ++ ["foo:".data, "bar".data]) := by
  refine ⟨by decide, by decide, ?_⟩
  rfl

end JailFS

namespace Validator

/-- C7 (code evaluated at the failing input): on a structurally clean
patch, with bandit installed but timing out (an `ERROR`-status tool
result) and no tool reporting `FAIL`, `run_sast` aggregates to overall
`PASS` — an `ERROR` status falsifies `all_skipped` and falls through to
the `PASS` arm — and the validator's final attested outcome is
`APPROVED`, not a conservative non-approval. -/
theorem sast_error_attests_approved :
    (validatePatch patchClean sastErrEnv).1 = "APPROVED"
    ∧ (Sast.runSast sastErrEnv).results.any (fun r => r.status = "ERROR") = true
    ∧ (Sast.runSast sastErrEnv).results.any (fun r => r.status = "FAIL") = false
    ∧ (Sast.runSast sastErrEnv).overall = "PASS" := by
  decide

end Validator

namespace PatchSchema

/-- C8 (amended): a proposal whose rationale consists only of control
characters *other than tab and newline* is reported invalid even when the
raw rationale length is at least 10: `sanitize_rationale` strips every
character outside printable ASCII plus tab and newline, and re-applies the
minimum-length check to the stripped value.  (A rationale made of tabs or
newlines survives the stripping — see the counterexample.) -/
theorem control_rationale_rejected (p : Proposal)
    (hlen : 10 ≤ p.rationale.length)
    (hctl : ∀ c ∈ p.rationale.data, (c.toNat < 32 ∨ c.toNat = 127) ∧ c ≠ '\t' ∧ c ≠ '\n') :
    (validateProposal p).valid = false := by
  have hclean : (sanitizedRationale p.rationale).data = [] := by
    rw [sanitizedRationale]
    rw [List.filter_eq_nil]
    intro c hc
    obtain ⟨hrange, htab, hnl⟩ := hctl c hc
    simp only [decide_eq_true_eq, not_or]
    push_neg
    refine ⟨fun h32 => ?_, htab, hnl⟩
    omega
  have hbad : proposalValid p = false := by
    have hlen0 : (sanitizedRationale p.rationale).length = 0 := by
      show (sanitizedRationale p.rationale).data.length = 0
      rw [hclean]
      rfl
    simp [proposalValid, hlen0]
  rw [validateProposal, if_pos (by simp [hbad])]

/-- Witness for `control_rationale_rejected`: the otherwise-valid proposal
whose rationale is ten `\x01` characters is reported invalid. -/
theorem control_rationale_rejected_witness :
    (validateProposal
      { tabRationaleProposal with
        rationale := ⟨List.replicate 10 (Char.ofNat 1)⟩ }).valid = false :=
  control_rationale_rejected _ (by decide) (by decide)

/-- C8 counterexample: a rationale of ten tab characters consists only of
control characters and has raw length 10, yet the proposal passes schema
validation — `sanitize_rationale`'s character class keeps `\t` and `\n`,
so nothing is stripped and the re-applied length check succeeds. -/
theorem tab_rationale_accepted :
    tabRationaleProposal.rationale.length = 10
    ∧ (∀ c ∈ tabRationaleProposal.rationale.data, c.toNat < 32)
    ∧ (validateProposal tabRationaleProposal).valid = true := by
  decide

end PatchSchema
